import Mathlib

set_option maxRecDepth 100000

/-!
Verification development for the picky-rs certificate-authority service.

The development shallowly embeds the parts of the repository that the
checked properties are about:

* `src/picky-server/src/addressing.rs` — canonical / alternate
  content-addressing of DER blobs (`encode_to_canonical_address`,
  `encode_to_alternative_addresses`, `convert_to_canonical_base`);
* `src/picky-server/src/http/controller.rs` — the chain walker
  (`find_ca_chain`), the bootstrap controller (`generate_root_ca`,
  `generate_intermediate_ca`, `inject_config_provided_cert`,
  `init_storage_from_config`), configuration reload
  (`reload_yaml_conf_impl`) and direct certificate submission
  (`post_cert`).

Machine integers are modelled as `Nat` with explicit reduction modulo
`2 ^ 32`; byte strings are `List Nat` with every element `< 256`.
Fallible operations return `Except String _` mirroring the
`Result<_, String>` signatures of the source.  The external `multibase`
and `multihash` crates, the storage backends, the `Picky` certificate
builder and the configuration type are collaborators whose code is not
under `src/`; they are modelled from the specification where indicated.
-/

/-- Byte strings: each element is a byte, i.e. `< 256`. -/
abbrev Bytes := List Nat

/-- Truncation to a 32-bit word. -/
def u32 (x : Nat) : Nat := x % 4294967296

/-- 32-bit right rotation (input assumed `< 2 ^ 32`). -/
def rotr32 (n x : Nat) : Nat := u32 ((x >>> n) ||| (x <<< (32 - n)))

/-- 32-bit left rotation (input assumed `< 2 ^ 32`). -/
def rotl32 (n x : Nat) : Nat := u32 ((x <<< n) ||| (x >>> (32 - n)))

/-- Bitwise complement on 32-bit words. -/
def not32 (x : Nat) : Nat := x ^^^ 4294967295

/-- Big-endian bytes of a 32-bit word. -/
def wordBytesBE (w : Nat) : Bytes :=
  [(w >>> 24) % 256, (w >>> 16) % 256, (w >>> 8) % 256, w % 256]

/-- Big-endian 32-bit words from bytes (groups of four). -/
def bytesToWordsBE : Bytes → List Nat
  | b1 :: b2 :: b3 :: b4 :: rest =>
      (b1 * 16777216 + b2 * 65536 + b3 * 256 + b4) :: bytesToWordsBE rest
  | _ => []

/-- Big-endian bytes of a 64-bit quantity (used for hash length padding). -/
def lenBytesBE64 (n : Nat) : Bytes :=
  [(n >>> 56) % 256, (n >>> 48) % 256, (n >>> 40) % 256, (n >>> 32) % 256,
   (n >>> 24) % 256, (n >>> 16) % 256, (n >>> 8) % 256, n % 256]

/-- Merkle–Damgård padding shared by SHA-1 and SHA-256: append `0x80`,
zero bytes up to 56 mod 64, then the bit length as 8 big-endian bytes. -/
def shaPad (msg : Bytes) : Bytes :=
  let L := msg.length
  let padLen := (119 - L % 64) % 64
  msg ++ [128] ++ List.replicate padLen 0 ++ lenBytesBE64 (8 * L)

/-- Split a byte string into 64-byte blocks (structural recursion on a
fuel bounded by the length, so that the kernel can evaluate it). -/
def chunks64Aux : Nat → Bytes → List Bytes
  | 0, _ => []
  | _, [] => []
  | fuel + 1, l => l.take 64 :: chunks64Aux fuel (l.drop 64)

def chunks64 (l : Bytes) : List Bytes := chunks64Aux (l.length + 1) l

/-! ### SHA-256 (FIPS 180-4), modelled as a pure function on bytes. -/

def sha256K : List Nat :=
  [1116352408, 1899447441, 3049323471, 3921009573, 961987163,
   1508970993, 2453635748, 2870763221, 3624381080, 310598401,
   607225278, 1426881987, 1925078388, 2162078206, 2614888103,
   3248222580, 3835390401, 4022224774, 264347078, 604807628,
   770255983, 1249150122, 1555081692, 1996064986, 2554220882,
   2821834349, 2952996808, 3210313671, 3336571891, 3584528711,
   113926993, 338241895, 666307205, 773529912, 1294757372,
   1396182291, 1695183700, 1986661051, 2177026350, 2456956037,
   2730485921, 2820302411, 3259730800, 3345764771, 3516065817,
   3600352804, 4094571909, 275423344, 430227734, 506948616,
   659060556, 883997877, 958139571, 1322822218, 1537002063,
   1747873779, 1955562222, 2024104815, 2227730452, 2361852424,
   2428436474, 2756734187, 3204031479, 3329325298]

def sha256Ch (x y z : Nat) : Nat := (x &&& y) ^^^ (not32 x &&& z)

def sha256Maj (x y z : Nat) : Nat := (x &&& y) ^^^ (x &&& z) ^^^ (y &&& z)

def bSig0 (x : Nat) : Nat := rotr32 2 x ^^^ rotr32 13 x ^^^ rotr32 22 x

def bSig1 (x : Nat) : Nat := rotr32 6 x ^^^ rotr32 11 x ^^^ rotr32 25 x

def sSig0 (x : Nat) : Nat := rotr32 7 x ^^^ rotr32 18 x ^^^ (x >>> 3)

def sSig1 (x : Nat) : Nat := rotr32 17 x ^^^ rotr32 19 x ^^^ (x >>> 10)

/-- 8-word SHA-256 state. -/
structure Sha256State where
  a : Nat
  b : Nat
  c : Nat
  d : Nat
  e : Nat
  f : Nat
  g : Nat
  h : Nat

def sha256Init : Sha256State :=
  ⟨1779033703, 3144134277, 1013904242, 2773480762,
   1359893119, 2600822924, 528734635, 1541459225⟩

/-- Message-schedule extension; `wr` holds the schedule so far, most
recent word first. -/
def sha256Sched (wr : List Nat) : Nat → List Nat
  | 0 => wr.reverse
  | c + 1 =>
      sha256Sched
        (u32 (sSig1 (wr.getD 1 0) + wr.getD 6 0 + sSig0 (wr.getD 14 0) + wr.getD 15 0) :: wr) c

def sha256Round (s : Sha256State) (kw : Nat × Nat) : Sha256State :=
  let t1 := u32 (s.h + bSig1 s.e + sha256Ch s.e s.f s.g + kw.1 + kw.2)
  let t2 := u32 (bSig0 s.a + sha256Maj s.a s.b s.c)
  ⟨u32 (t1 + t2), s.a, s.b, s.c, u32 (s.d + t1), s.e, s.f, s.g⟩

def sha256Compress (st : Sha256State) (block : Bytes) : Sha256State :=
  let w := sha256Sched (bytesToWordsBE block).reverse 48
  let r := (sha256K.zip w).foldl sha256Round st
  ⟨u32 (st.a + r.a), u32 (st.b + r.b), u32 (st.c + r.c), u32 (st.d + r.d),
   u32 (st.e + r.e), u32 (st.f + r.f), u32 (st.g + r.g), u32 (st.h + r.h)⟩

/-- SHA-256 digest of a byte string (32 bytes). -/
def sha256 (msg : Bytes) : Bytes :=
  let s := (chunks64 (shaPad msg)).foldl sha256Compress sha256Init
  wordBytesBE s.a ++ wordBytesBE s.b ++ wordBytesBE s.c ++ wordBytesBE s.d ++
  wordBytesBE s.e ++ wordBytesBE s.f ++ wordBytesBE s.g ++ wordBytesBE s.h

/-! ### SHA-1 (FIPS 180-4). -/

/-- 5-word SHA-1 state. -/
structure Sha1State where
  a : Nat
  b : Nat
  c : Nat
  d : Nat
  e : Nat

def sha1Init : Sha1State :=
  ⟨1732584193, 4023233417, 2562383102, 271733878, 3285377520⟩

def sha1F (i b c d : Nat) : Nat :=
  if i < 20 then (b &&& c) ||| (not32 b &&& d)
  else if i < 40 then b ^^^ c ^^^ d
  else if i < 60 then (b &&& c) ||| (b &&& d) ||| (c &&& d)
  else b ^^^ c ^^^ d

def sha1K (i : Nat) : Nat :=
  if i < 20 then 1518500249
  else if i < 40 then 1859775393
  else if i < 60 then 2400959708
  else 3395469782

/-- SHA-1 schedule extension; `wr` most recent first. -/
def sha1Sched (wr : List Nat) : Nat → List Nat
  | 0 => wr.reverse
  | c + 1 =>
      sha1Sched
        (rotl32 1 (wr.getD 2 0 ^^^ wr.getD 7 0 ^^^ wr.getD 13 0 ^^^ wr.getD 15 0) :: wr) c

def sha1Round (s : Sha1State) (iw : Nat × Nat) : Sha1State :=
  let t := u32 (rotl32 5 s.a + sha1F iw.1 s.b s.c s.d + s.e + sha1K iw.1 + iw.2)
  ⟨t, s.a, rotl32 30 s.b, s.c, s.d⟩

def sha1Compress (st : Sha1State) (block : Bytes) : Sha1State :=
  let w := sha1Sched (bytesToWordsBE block).reverse 64
  let r := ((List.range 80).zip w).foldl sha1Round st
  ⟨u32 (st.a + r.a), u32 (st.b + r.b), u32 (st.c + r.c), u32 (st.d + r.d), u32 (st.e + r.e)⟩

/-- SHA-1 digest of a byte string (20 bytes). -/
def sha1 (msg : Bytes) : Bytes :=
  let s := (chunks64 (shaPad msg)).foldl sha1Compress sha1Init
  wordBytesBE s.a ++ wordBytesBE s.b ++ wordBytesBE s.c ++ wordBytesBE s.d ++ wordBytesBE s.e

/-! ### Base64url (RFC 4648, URL-safe alphabet, no padding).

Modelled from the spec: the `multibase` crate's
`Base64UrlUpperNoPad` base — canonical encoding uses
"base64url-unpadded-upper (prefix `u`)" (§6). -/

def b64Alphabet : List Char :=
  "ABCDEFGHIJKLMNOPQRSTUVWXYZabcdefghijklmnopqrstuvwxyz0123456789-_".data

def b64Char (s : Nat) : Char := b64Alphabet.getD s '?'

def b64Index (c : Char) : Option Nat := b64Alphabet.findIdx? (fun a => a = c)

/-- Bytes to base64 sextets, processing three bytes at a time; a final
group of one or two bytes yields two or three sextets (no padding). -/
def toSextets : Bytes → List Nat
  | [] => []
  | [b1] => [b1 / 4, b1 % 4 * 16]
  | [b1, b2] => [b1 / 4, b1 % 4 * 16 + b2 / 16, b2 % 16 * 4]
  | b1 :: b2 :: b3 :: rest =>
      b1 / 4 :: (b1 % 4 * 16 + b2 / 16) :: (b2 % 16 * 4 + b3 / 64) :: b3 % 64 ::
        toSextets rest

/-- Sextets back to bytes; a lone trailing sextet is an invalid length. -/
def fromSextets : List Nat → Option Bytes
  | [] => some []
  | [_] => none
  | [s1, s2] => some [s1 * 4 + s2 / 16]
  | [s1, s2, s3] => some [s1 * 4 + s2 / 16, s2 % 16 * 16 + s3 / 4]
  | s1 :: s2 :: s3 :: s4 :: rest =>
      match fromSextets rest with
      | some tl =>
          some ((s1 * 4 + s2 / 16) :: (s2 % 16 * 16 + s3 / 4) :: (s3 % 4 * 64 + s4) :: tl)
      | none => none

def encodeB64 (l : Bytes) : List Char := (toSextets l).map b64Char

def decodeB64Chars : List Char → Option (List Nat)
  | [] => some []
  | c :: rest =>
      match b64Index c, decodeB64Chars rest with
      | some s, some ss => some (s :: ss)
      | _, _ => none

def decodeB64 (cs : List Char) : Option Bytes :=
  match decodeB64Chars cs with
  | some ss => fromSextets ss
  | none => none

/-! ### Multibase.

Modelled from the spec: "Multibase: self-describing base-N text
encoding, one-byte prefix selecting the base" (glossary); the embedding
models the canonical base `Base64UrlUpperNoPad` (prefix `u`), the only
base the repository encodes with. -/

inductive Base where
  | Base64UrlUpperNoPad
deriving DecidableEq

namespace Multibase

def encode (_ : Base) (data : Bytes) : String := String.mk ('u' :: encodeB64 data)

def decode (s : String) : Except String (Base × Bytes) :=
  match s.data with
  | [] => Except.error "unknown base"
  | c :: rest =>
      if c = 'u' then
        match decodeB64 rest with
        | some bytes => Except.ok (Base.Base64UrlUpperNoPad, bytes)
        | none => Except.error "invalid base string"
      else Except.error "unsupported base"

end Multibase

/-! ### Multihash.

Modelled from the spec: "Multihash: self-describing hash format,
`<algorithm-code><length><digest>`" (glossary).  The `Hash` table
carries the algorithms relevant to the repository: the canonical
SHA2-256, the alternate SHA-1, and SHA2-512 as a representative of the
further algorithms the multihash library recognises beyond the
repository's canonical and alternate set. -/

inductive Hash where
  | SHA1
  | SHA2256
  | SHA2512
deriving DecidableEq

def hashCode : Hash → Nat
  | Hash.SHA1 => 0x11
  | Hash.SHA2256 => 0x12
  | Hash.SHA2512 => 0x13

def hashFromCode (c : Nat) : Option Hash :=
  if c = 0x11 then some Hash.SHA1
  else if c = 0x12 then some Hash.SHA2256
  else if c = 0x13 then some Hash.SHA2512
  else none

def hashSize : Hash → Nat
  | Hash.SHA1 => 20
  | Hash.SHA2256 => 32
  | Hash.SHA2512 => 64

structure Multihash where
  algorithm : Hash
  digest : Bytes
deriving DecidableEq

/-- Raw multihash bytes: algorithm code, digest length, digest. -/
def Multihash.asBytes (m : Multihash) : Bytes :=
  hashCode m.algorithm :: hashSize m.algorithm :: m.digest

/-- `multihash::encode`: hash `data` and wrap the digest.  The digest
computation is modelled for the algorithms the repository hashes with
(canonical SHA2-256 and alternate SHA-1); other table entries are
modelled as an unsupported-type error, which the repository never
exercises. -/
def Multihash.encode (h : Hash) (data : Bytes) : Except String Multihash :=
  match h with
  | Hash.SHA1 => Except.ok ⟨Hash.SHA1, sha1 data⟩
  | Hash.SHA2256 => Except.ok ⟨Hash.SHA2256, sha256 data⟩
  | Hash.SHA2512 => Except.error "unsupported type"

/-- `Multihash::from_bytes`: parse and validate raw multihash bytes. -/
def Multihash.fromBytes (raw : Bytes) : Except String Multihash :=
  match raw with
  | code :: len :: rest =>
      match hashFromCode code with
      | some h =>
          if len = hashSize h ∧ rest.length = hashSize h then Except.ok ⟨h, rest⟩
          else Except.error "bad input length"
      | none => Except.error "unknown code"
  | _ => Except.error "bad input length"

/-! ### `src/picky-server/src/addressing.rs`. -/

def CANONICAL_HASH : Hash := Hash.SHA2256

def CANONICAL_BASE : Base := Base.Base64UrlUpperNoPad

def encode_to_canonical_address (data : Bytes) : Except String String :=
  match Multihash.encode CANONICAL_HASH data with
  | Except.ok hash => Except.ok (Multibase.encode CANONICAL_BASE hash.asBytes)
  | Except.error e => Except.error e

def ALTERNATIVE_HASHES : List Hash := [Hash.SHA1]

def encode_to_alternative_addresses (data : Bytes) : Except String (List String) :=
  ALTERNATIVE_HASHES.foldlM
    (fun (addresses : List String) (hash : Hash) =>
      match Multihash.encode hash data with
      | Except.ok address =>
          Except.ok (addresses ++ [Multibase.encode CANONICAL_BASE address.asBytes])
      | Except.error e => Except.error ("couldn't hash: " ++ e))
    []

def convert_to_canonical_base (multibase_multihash_address : String) :
    Except String (String × Hash) :=
  match Multibase.decode multibase_multihash_address with
  | Except.error e => Except.error e
  | Except.ok (_, raw_multi) =>
      match Multihash.fromBytes raw_multi with
      | Except.error e => Except.error e
      | Except.ok multi =>
          Except.ok (Multibase.encode CANONICAL_BASE multi.asBytes, multi.algorithm)

instance {ε α : Type} [DecidableEq ε] [DecidableEq α] : DecidableEq (Except ε α) := fun
  | Except.ok a, Except.ok b =>
      if h : a = b then isTrue (by rw [h]) else isFalse (fun hc => h (Except.ok.inj hc))
  | Except.error a, Except.error b =>
      if h : a = b then isTrue (by rw [h]) else isFalse (fun hc => h (Except.error.inj hc))
  | Except.ok _, Except.error _ => isFalse (fun hc => Except.noConfusion hc)
  | Except.error _, Except.ok _ => isFalse (fun hc => Except.noConfusion hc)

/-! ### Round-trip lemmas for the encoding layer. -/

theorem b64Index_b64Char : ∀ s, s < 64 → b64Index (b64Char s) = some s := by decide

theorem toSextets_lt (l : Bytes) (hl : ∀ b ∈ l, b < 256) : ∀ s ∈ toSextets l, s < 64 := by
  induction l using toSextets.induct with
  | case1 => simp [toSextets]
  | case2 b1 =>
      have h1 : b1 < 256 := hl b1 (by simp)
      simp only [toSextets, List.mem_cons, List.not_mem_nil, or_false]
      rintro s (rfl | rfl) <;> omega
  | case3 b1 b2 =>
      have h1 : b1 < 256 := hl b1 (by simp)
      have h2 : b2 < 256 := hl b2 (by simp)
      simp only [toSextets, List.mem_cons, List.not_mem_nil, or_false]
      rintro s (rfl | rfl | rfl) <;> omega
  | case4 b1 b2 b3 rest ih =>
      have h1 : b1 < 256 := hl b1 (by simp)
      have h2 : b2 < 256 := hl b2 (by simp)
      have h3 : b3 < 256 := hl b3 (by simp)
      have hrest : ∀ b ∈ rest, b < 256 := fun b hb => hl b (by simp [hb])
      simp only [toSextets, List.mem_cons]
      rintro s (rfl | rfl | rfl | rfl | hs)
      · omega
      · omega
      · omega
      · omega
      · exact ih hrest s hs

theorem fromSextets_toSextets (l : Bytes) (hl : ∀ b ∈ l, b < 256) :
    fromSextets (toSextets l) = some l := by
  induction l using toSextets.induct with
  | case1 => rfl
  | case2 b1 =>
      have h1 : b1 < 256 := hl b1 (by simp)
      simp only [toSextets, fromSextets]
      congr 2
      omega
  | case3 b1 b2 =>
      have h1 : b1 < 256 := hl b1 (by simp)
      have h2 : b2 < 256 := hl b2 (by simp)
      simp only [toSextets, fromSextets]
      congr 3
      · omega
      · omega
  | case4 b1 b2 b3 rest ih =>
      have h1 : b1 < 256 := hl b1 (by simp)
      have h2 : b2 < 256 := hl b2 (by simp)
      have h3 : b3 < 256 := hl b3 (by simp)
      have hrest : ∀ b ∈ rest, b < 256 := fun b hb => hl b (by simp [hb])
      simp only [toSextets, fromSextets, ih hrest]
      congr 4
      · omega
      · omega
      · omega

theorem decodeB64Chars_map (ss : List Nat) (hs : ∀ s ∈ ss, s < 64) :
    decodeB64Chars (ss.map b64Char) = some ss := by
  induction ss with
  | nil => rfl
  | cons s tl ih =>
      have h1 : s < 64 := hs s (by simp)
      have htl : ∀ x ∈ tl, x < 64 := fun x hx => hs x (by simp [hx])
      simp only [List.map_cons, decodeB64Chars, b64Index_b64Char s h1, ih htl]

theorem decodeB64_encodeB64 (l : Bytes) (hl : ∀ b ∈ l, b < 256) :
    decodeB64 (encodeB64 l) = some l := by
  simp only [decodeB64, encodeB64, decodeB64Chars_map (toSextets l) (toSextets_lt l hl),
    fromSextets_toSextets l hl]

theorem multibase_decode_encode (data : Bytes) (hd : ∀ b ∈ data, b < 256) :
    Multibase.decode (Multibase.encode CANONICAL_BASE data) =
      Except.ok (Base.Base64UrlUpperNoPad, data) := by
  simp only [Multibase.decode, Multibase.encode, decodeB64_encodeB64 data hd]
  rfl

theorem wordBytesBE_length (w : Nat) : (wordBytesBE w).length = 4 := rfl

theorem wordBytesBE_lt (w : Nat) : ∀ b ∈ wordBytesBE w, b < 256 := by
  simp only [wordBytesBE, List.mem_cons, List.not_mem_nil, or_false]
  rintro b (rfl | rfl | rfl | rfl) <;> exact Nat.mod_lt _ (by norm_num)

theorem sha1_length (msg : Bytes) : (sha1 msg).length = 20 := by
  simp [sha1, List.length_append, wordBytesBE_length]

theorem sha1_lt (msg : Bytes) : ∀ b ∈ sha1 msg, b < 256 := by
  simp only [sha1, List.mem_append]
  rintro b ((((h | h) | h) | h) | h) <;> exact wordBytesBE_lt _ b h

theorem sha256_length (msg : Bytes) : (sha256 msg).length = 32 := by
  simp [sha256, List.length_append, wordBytesBE_length]

theorem sha256_lt (msg : Bytes) : ∀ b ∈ sha256 msg, b < 256 := by
  simp only [sha256, List.mem_append]
  rintro b (((((((h | h) | h) | h) | h) | h) | h) | h) <;> exact wordBytesBE_lt _ b h

theorem multihash_fromBytes_asBytes (h : Hash) (d : Bytes) (hd : d.length = hashSize h) :
    Multihash.fromBytes (Multihash.asBytes ⟨h, d⟩) = Except.ok ⟨h, d⟩ := by
  cases h <;> simp [Multihash.fromBytes, Multihash.asBytes, hashFromCode, hashCode,
    hashSize] <;> simp_all [hashSize]

/-- ASCII bytes of the string `multihash` used by the spec's examples. -/
def asciiMultihash : Bytes := "multihash".data.map Char.toNat

/-- C2: for every byte string `B`, the canonical address of `B` is the
SHA-256 digest of `B` wrapped in a multihash structure (algorithm code
`0x12`, length `0x20`) and encoded with multibase in base64url-unpadded
with prefix `u`; for the ASCII bytes of `multihash` the result is
exactly `uEiCcvAfD-ZFyWDajqipYHKICkZiqQgudmbwOEx2fPiy-Rw`. -/
theorem canonical_address_is_sha256_multihash_multibase :
    (∀ B : Bytes, encode_to_canonical_address B =
      Except.ok (Multibase.encode CANONICAL_BASE (0x12 :: 0x20 :: sha256 B))) ∧
    encode_to_canonical_address asciiMultihash =
      Except.ok "uEiCcvAfD-ZFyWDajqipYHKICkZiqQgudmbwOEx2fPiy-Rw" := by
  constructor
  · intro B
    rfl
  · decide

/-- C5: for every byte string `B` and the supported alternate digest
SHA-1, the alternate address of `B` normalises, via
`convert_to_canonical_base`, to the multihash of `B` under SHA-1
re-encoded in the canonical base, paired with detected algorithm
SHA-1. -/
theorem alternate_address_normalisation_roundtrip (B : Bytes) (hB : ∀ b ∈ B, b < 256) :
    ∃ a mh,
      encode_to_alternative_addresses B = Except.ok [a] ∧
      Multihash.encode Hash.SHA1 B = Except.ok mh ∧
      a = Multibase.encode CANONICAL_BASE mh.asBytes ∧
      convert_to_canonical_base a =
        Except.ok (Multibase.encode CANONICAL_BASE mh.asBytes, Hash.SHA1) := by
  refine ⟨Multibase.encode CANONICAL_BASE (Multihash.asBytes ⟨Hash.SHA1, sha1 B⟩),
    ⟨Hash.SHA1, sha1 B⟩, rfl, rfl, rfl, ?_⟩
  have hbytes : ∀ b ∈ Multihash.asBytes (⟨Hash.SHA1, sha1 B⟩ : Multihash), b < 256 := by
    simp only [Multihash.asBytes, hashCode, hashSize, List.mem_cons]
    rintro b (rfl | rfl | hb)
    · norm_num
    · norm_num
    · exact sha1_lt B b hb
  simp only [convert_to_canonical_base, multibase_decode_encode _ hbytes,
    multihash_fromBytes_asBytes Hash.SHA1 (sha1 B) (by simp [sha1_length, hashSize])]

/-- Witness for C5 at the spec's example input: the SHA-1 alternate
address of the ASCII bytes of `multihash` normalises to itself with
detected algorithm SHA-1. -/
theorem alternate_address_normalisation_roundtrip_witness :
    convert_to_canonical_base "uERSIwvEfss45KstbKYbmQCEcRpAHPg" =
      Except.ok ("uERSIwvEfss45KstbKYbmQCEcRpAHPg", Hash.SHA1) := by
  obtain ⟨a, mh, henc, hmh, ha, hconv⟩ :=
    alternate_address_normalisation_roundtrip asciiMultihash (by decide)
  have hae : a = "uERSIwvEfss45KstbKYbmQCEcRpAHPg" := by
    have : encode_to_alternative_addresses asciiMultihash =
        Except.ok ["uERSIwvEfss45KstbKYbmQCEcRpAHPg"] := by decide
    rw [this] at henc
    exact (List.cons.inj (Except.ok.inj henc)).1.symm
  rw [hae, ha.symm.trans hae] at hconv
  exact hconv

/-- A syntactically valid multihash: algorithm code from the table, the
length byte, and a digest of exactly that length (spec glossary:
`<algorithm-code><length><digest>`). -/
def ValidMultihashBytes (raw : Bytes) : Prop :=
  ∃ h : Hash, ∃ d : Bytes, raw = hashCode h :: hashSize h :: d ∧ d.length = hashSize h

/-- A well-formed multibase/multihash address whose algorithm (SHA2-512)
is outside the canonical-plus-alternate set. -/
def sha512LikeAddress : String :=
  Multibase.encode CANONICAL_BASE (0x13 :: 0x40 :: List.replicate 64 0)

theorem hashFromCode_eq (c : Nat) (h : Hash) (he : hashFromCode c = some h) :
    c = hashCode h := by
  unfold hashFromCode at he
  split_ifs at he with h1 h2 h3
  · cases Option.some.inj he
    simp only [hashCode]
    omega
  · cases Option.some.inj he
    simp only [hashCode]
    omega
  · cases Option.some.inj he
    simp only [hashCode]
    omega

theorem multihash_fromBytes_ok (raw : Bytes) (m : Multihash)
    (hp : Multihash.fromBytes raw = Except.ok m) :
    raw = Multihash.asBytes m ∧ m.digest.length = hashSize m.algorithm := by
  match raw with
  | [] => exact absurd hp (by simp [Multihash.fromBytes])
  | [c] => exact absurd hp (by simp [Multihash.fromBytes])
  | code :: len :: rest =>
    unfold Multihash.fromBytes at hp
    cases hfc : hashFromCode code with
    | none =>
        simp only [hfc] at hp
        exact absurd hp (by simp)
    | some h =>
      simp only [hfc] at hp
      by_cases hlen : len = hashSize h ∧ rest.length = hashSize h
      · rw [if_pos hlen] at hp
        cases Except.ok.inj hp
        exact ⟨by simp [Multihash.asBytes, hashFromCode_eq code h hfc, hlen.1], hlen.2⟩
      · rw [if_neg hlen] at hp
        exact absurd hp (by simp)

theorem address_normalisation_accepts_other_algorithms :
    convert_to_canonical_base sha512LikeAddress =
      Except.ok (sha512LikeAddress, Hash.SHA2512) ∧
    Hash.SHA2512 ≠ Hash.SHA2256 ∧ Hash.SHA2512 ≠ Hash.SHA1 := by
  refine ⟨by decide, by decide, by decide⟩

theorem address_normalisation_failure_characterisation :
    (∀ s : String,
      (∃ r, convert_to_canonical_base s = Except.ok r) ↔
      (∃ b raw, Multibase.decode s = Except.ok (b, raw) ∧ ValidMultihashBytes raw)) ∧
    (∀ (h : Hash) (d : Bytes), (∀ b ∈ d, b < 256) → d.length = hashSize h →
      convert_to_canonical_base
          (Multibase.encode CANONICAL_BASE (hashCode h :: hashSize h :: d)) =
        Except.ok
          (Multibase.encode CANONICAL_BASE (hashCode h :: hashSize h :: d), h)) := by
  constructor
  · intro s
    constructor
    · rintro ⟨r, hr⟩
      unfold convert_to_canonical_base at hr
      cases hdec : Multibase.decode s with
      | error e =>
          simp only [hdec] at hr
          exact absurd hr (by simp)
      | ok p =>
        obtain ⟨b, raw⟩ := p
        simp only [hdec] at hr
        cases hmb : Multihash.fromBytes raw with
        | error e =>
            simp only [hdec, hmb] at hr
            exact absurd hr (by simp)
        | ok m =>
          obtain ⟨hraw, hlen⟩ := multihash_fromBytes_ok raw m hmb
          exact ⟨b, raw, rfl, m.algorithm, m.digest, by rw [hraw]; rfl, hlen⟩
    · rintro ⟨b, raw, hdec, h, d, hshape, hlen⟩
      refine ⟨(Multibase.encode CANONICAL_BASE (Multihash.asBytes ⟨h, d⟩), h), ?_⟩
      have hfb : Multihash.fromBytes (hashCode h :: hashSize h :: d) =
          Except.ok ⟨h, d⟩ := by
        simpa [Multihash.asBytes] using multihash_fromBytes_asBytes h d hlen
      unfold convert_to_canonical_base
      simp only [hdec, hshape, hfb]
  · intro h d hd hlen
    have hbytes : ∀ b ∈ Multihash.asBytes (⟨h, d⟩ : Multihash), b < 256 := by
      simp only [Multihash.asBytes, List.mem_cons]
      rintro b (rfl | rfl | hb)
      · cases h <;> norm_num [hashCode]
      · cases h <;> norm_num [hashSize]
      · exact hd b hb
    show convert_to_canonical_base (Multibase.encode CANONICAL_BASE
      (Multihash.asBytes ⟨h, d⟩)) = _
    unfold convert_to_canonical_base
    simp only [multibase_decode_encode _ hbytes, multihash_fromBytes_asBytes h d hlen]
    rfl

theorem address_normalisation_failure_characterisation_witness :
    convert_to_canonical_base
        (Multibase.encode CANONICAL_BASE (0x11 :: 0x14 :: List.replicate 20 3)) =
      Except.ok
        (Multibase.encode CANONICAL_BASE (0x11 :: 0x14 :: List.replicate 20 3),
          Hash.SHA1) := by
  have := address_normalisation_failure_characterisation.2 Hash.SHA1
    (List.replicate 20 3) (by decide) (by decide)
  simpa [hashCode, hashSize] using this

/-! ### Certificates and the storage interface.

Modelled from the spec: the parsed certificate view offered by the
external `picky` crate (`Cert::from_der` and its accessors), and the
storage capability set of §4.2 / §9 — `store` plus the lookups
`get_cert_by_addressing_hash`, `get_key_by_addressing_hash`,
`get_addressing_hash_by_name`, `get_addressing_hash_by_key_identifier`
and `lookup_addressing_hash` — whose backends live outside `src/`.
Key identifiers are modelled as their hex-encoded strings (the
controller always hex-encodes them before storage or lookup); the DER
encoding of a certificate is an opaque byte string carried alongside
the parsed fields; the signature field is opaque bytes that the server
code modelled here never inspects. -/

structure Cert where
  der : Bytes
  subject_common_name : Option String
  issuer_common_name : Option String
  subject_key_identifier : Option String
  authority_key_identifier : Option (Option String)
  signature : Bytes
deriving DecidableEq

/-- `db::CertificateEntry`: what the controller hands to `store`. -/
structure CertificateEntry where
  name : String
  cert : Cert
  key_identifier : String
  key : Option Bytes
deriving DecidableEq

/-- Pointwise map update (backends use hash maps keyed by strings). -/
def upd {α : Type} (k : String) (v : α) (m : String → Option α) : String → Option α :=
  fun x => if x = k then some v else m x

/-- Canonical address of DER bytes (total form of
`encode_to_canonical_address`, which never fails for SHA2-256). -/
def canonicalAddressOf (der : Bytes) : String :=
  Multibase.encode CANONICAL_BASE (0x12 :: 0x20 :: sha256 der)

/-- The single alternate address (SHA-1) of DER bytes. -/
def altAddressOf (der : Bytes) : String :=
  Multibase.encode CANONICAL_BASE (0x11 :: 0x14 :: sha1 der)

/-- Alternate addresses of DER bytes, one per member of
`ALTERNATIVE_HASHES` (currently SHA-1 only). -/
def alternateAddressesOf (der : Bytes) : List String :=
  [altAddressOf der]

theorem encode_to_canonical_address_eq (der : Bytes) :
    encode_to_canonical_address der = Except.ok (canonicalAddressOf der) := rfl

/-- The storage interface: primary record map plus the three secondary
indexes of §4.2, all keyed by strings. -/
structure PickyStorage where
  certByAddress : String → Option Cert
  keyByAddress : String → Option Bytes
  addressByName : String → Option String
  addressByKeyId : String → Option String
  addressByAlternate : String → Option String

/-- Update at `k` with the payload of `v` when present, else leave the
map unchanged (private keys are only indexed when the entry has one). -/
def updIfSome {α : Type} (k : String) (v : Option α) (m : String → Option α) :
    String → Option α :=
  match v with
  | some x => upd k x m
  | none => m

/-- `store`: insert the record at its canonical address and update all
secondary indexes, the alternate index once per alternate digest. -/
def PickyStorage.store (s : PickyStorage) (e : CertificateEntry) : PickyStorage :=
  let addr := canonicalAddressOf e.cert.der
  { certByAddress := upd addr e.cert s.certByAddress
    keyByAddress := updIfSome addr e.key s.keyByAddress
    addressByName := upd e.name addr s.addressByName
    addressByKeyId := upd e.key_identifier addr s.addressByKeyId
    addressByAlternate :=
      (alternateAddressesOf e.cert.der).foldl (fun m a => upd a addr m) s.addressByAlternate }

/-! ### The chain walker (`find_ca_chain`).

The source loop is unbounded; the embedding spends one unit of fuel per
iteration, and `none` means the walk has not finished within `fuel`
iterations.  `some r` is the result the source returns. -/

def find_ca_chain_loop (s : PickyStorage) :
    Nat → Cert → String → List Cert → Option (Except String (List Cert))
  | 0, _, _, _ => none
  | fuel + 1, cert, current_key_id, chain =>
    match cert.authority_key_identifier with
    | none => some (Except.error "couldn't fetch authority key identifier")
    | some none => some (Except.error "parent key identifier not found")
    | some (some parent_key_id) =>
      if current_key_id = parent_key_id then
        some (Except.ok chain)
      else
        match s.addressByKeyId parent_key_id with
        | none => some (Except.error "couldn't fetch hash")
        | some hash_address =>
          match s.certByAddress hash_address with
          | none => some (Except.error "couldn't fetch certificate der")
          | some next_cert =>
              find_ca_chain_loop s fuel next_cert parent_key_id (chain ++ [next_cert])

def find_ca_chain (s : PickyStorage) (fuel : Nat) (ca_name : String) :
    Option (Except String (List Cert)) :=
  match s.addressByName ca_name with
  | none => some (Except.error "couldn't fetch CA hash id")
  | some ca_hash =>
    match s.certByAddress ca_hash with
    | none => some (Except.error "couldn't fetch CA certificate der")
    | some cert => find_ca_chain_loop s fuel cert "" [cert]

/-- The key-identifier index is coherent: a certificate fetched through
it carries the key identifier it was indexed under. -/
def StoreKeyIdCoherent (s : PickyStorage) : Prop :=
  ∀ k h c, s.addressByKeyId k = some h → s.certByAddress h = some c →
    c.subject_key_identifier = some k

theorem find_ca_chain_loop_ok_extends (s : PickyStorage) :
    ∀ fuel cert cur chain res,
      find_ca_chain_loop s fuel cert cur chain = some (Except.ok res) →
      ∃ t, res = chain ++ t := by
  intro fuel
  induction fuel with
  | zero => intro cert cur chain res hres; exact absurd hres (by simp [find_ca_chain_loop])
  | succ n ih =>
    intro cert cur chain res hres
    unfold find_ca_chain_loop at hres
    cases haki : cert.authority_key_identifier with
    | none =>
        simp only [haki] at hres
        exact absurd hres (by simp)
    | some o =>
      cases o with
      | none =>
          simp only [haki] at hres
          exact absurd hres (by simp)
      | some parent =>
        simp only [haki] at hres
        by_cases hcur : cur = parent
        · rw [if_pos hcur] at hres
          obtain rfl : chain = res := Except.ok.inj (Option.some.inj hres)
          exact ⟨[], (List.append_nil chain).symm⟩
        · rw [if_neg hcur] at hres
          cases hk : s.addressByKeyId parent with
          | none =>
              simp only [hk] at hres
              exact absurd hres (by simp)
          | some ha =>
            simp only [hk] at hres
            cases hc : s.certByAddress ha with
            | none =>
                simp only [hc] at hres
                exact absurd hres (by simp)
            | some c2 =>
              simp only [hc] at hres
              obtain ⟨t, ht⟩ := ih c2 parent (chain ++ [c2]) res hres
              exact ⟨[c2] ++ t, by rw [ht, List.append_assoc]⟩

theorem find_ca_chain_loop_ok_last (s : PickyStorage) (c₀ : Cert)
    (hcoh : StoreKeyIdCoherent s)
    (haki0 : c₀.authority_key_identifier ≠ some (some "")) :
    ∀ fuel cert cur chain res,
      (cur = "" ∧ cert = c₀ ∨ cert.subject_key_identifier = some cur) →
      chain.getLast? = some cert →
      find_ca_chain_loop s fuel cert cur chain = some (Except.ok res) →
      ∃ cr k, res.getLast? = some cr ∧ cr.subject_key_identifier = some k ∧
        cr.authority_key_identifier = some (some k) := by
  intro fuel
  induction fuel with
  | zero => intro cert cur chain res _ _ hres; exact absurd hres (by simp [find_ca_chain_loop])
  | succ n ih =>
    intro cert cur chain res hinv hlast hres
    unfold find_ca_chain_loop at hres
    cases haki : cert.authority_key_identifier with
    | none =>
        simp only [haki] at hres
        exact absurd hres (by simp)
    | some o =>
      cases o with
      | none =>
          simp only [haki] at hres
          exact absurd hres (by simp)
      | some parent =>
        simp only [haki] at hres
        by_cases hcur : cur = parent
        · rw [if_pos hcur] at hres
          obtain rfl : chain = res := Except.ok.inj (Option.some.inj hres)
          rcases hinv with ⟨hce, hcc⟩ | hski
          · exfalso
            apply haki0
            rw [← hcc, haki, ← hcur, hce]
          · exact ⟨cert, parent, hlast, hcur ▸ hski, haki⟩
        · rw [if_neg hcur] at hres
          cases hk : s.addressByKeyId parent with
          | none =>
              simp only [hk] at hres
              exact absurd hres (by simp)
          | some ha =>
            simp only [hk] at hres
            cases hc : s.certByAddress ha with
            | none =>
                simp only [hc] at hres
                exact absurd hres (by simp)
            | some c2 =>
              simp only [hc] at hres
              exact ih c2 parent (chain ++ [c2]) res
                (Or.inr (hcoh parent ha c2 hk hc))
                (by simp) hres

/-- C1: whenever the chain walk succeeds, the returned chain starts
with the certificate the walk was started at and ends with a
self-issued certificate (its AKI key identifier equals its SKI),
provided the key-identifier index is coherent and the starting
certificate does not carry an empty AKI key identifier. -/
theorem chain_walk_starts_at_start_ends_at_root
    (s : PickyStorage) (fuel : Nat) (ca_name : String) (h : String) (c₀ : Cert)
    (chain : List Cert)
    (hname : s.addressByName ca_name = some h)
    (hcert : s.certByAddress h = some c₀)
    (hcoh : StoreKeyIdCoherent s)
    (haki0 : c₀.authority_key_identifier ≠ some (some ""))
    (hres : find_ca_chain s fuel ca_name = some (Except.ok chain)) :
    chain.head? = some c₀ ∧
    ∃ cr k, chain.getLast? = some cr ∧ cr.subject_key_identifier = some k ∧
      cr.authority_key_identifier = some (some k) := by
  unfold find_ca_chain at hres
  simp only [hname, hcert] at hres
  constructor
  · obtain ⟨t, ht⟩ := find_ca_chain_loop_ok_extends s fuel c₀ "" [c₀] chain hres
    rw [ht]
    rfl
  · exact find_ca_chain_loop_ok_last s c₀ hcoh haki0 fuel c₀ "" [c₀] chain
      (Or.inl ⟨rfl, rfl⟩) rfl hres

/-! ### Concrete stores for the chain-walk scenarios. -/

/-- The root CA certificate of a bootstrap-shaped store for realm
`Picky`: self-issued, AKI = SKI. -/
def demoRoot : Cert :=
  { der := [0]
    subject_common_name := some "Picky Root CA"
    issuer_common_name := some "Picky Root CA"
    subject_key_identifier := some "aa"
    authority_key_identifier := some (some "aa")
    signature := [] }

/-- The intermediate certificate: issued by the root, AKI = root SKI. -/
def demoIntermediate : Cert :=
  { der := [1]
    subject_common_name := some "Picky Authority"
    issuer_common_name := some "Picky Root CA"
    subject_key_identifier := some "bb"
    authority_key_identifier := some (some "aa")
    signature := [] }

/-- A store holding exactly the root and intermediate of a fresh
bootstrap with realm `Picky`. -/
def demoStore : PickyStorage :=
  { certByAddress := fun a =>
      if a = "addr-root" then some demoRoot
      else if a = "addr-auth" then some demoIntermediate
      else none
    keyByAddress := fun _ => none
    addressByName := fun n =>
      if n = "Picky Root CA" then some "addr-root"
      else if n = "Picky Authority" then some "addr-auth"
      else none
    addressByKeyId := fun k =>
      if k = "aa" then some "addr-root"
      else if k = "bb" then some "addr-auth"
      else none
    addressByAlternate := fun _ => none }

theorem demoStore_coherent : StoreKeyIdCoherent demoStore := by
  intro k h c hk hc
  simp only [demoStore] at hk hc
  split_ifs at hk with h1 h2
  · cases Option.some.inj hk
    subst h1
    simp only [if_pos rfl] at hc
    rw [← Option.some.inj hc]
    rfl
  · cases Option.some.inj hk
    subst h2
    norm_num at hc
    rw [← Option.some.inj hc]
    rfl

/-- Witness for C1: on the bootstrap-shaped store, the walk started at
the leaf's issuer name `Picky Authority` succeeds with exactly two
certificates, `CN=Picky Authority` first and the self-issued
`CN=Picky Root CA` last. -/
theorem chain_walk_starts_at_start_ends_at_root_witness :
    find_ca_chain demoStore 16 "Picky Authority" =
      some (Except.ok [demoIntermediate, demoRoot]) ∧
    [demoIntermediate, demoRoot].head? = some demoIntermediate ∧
    (∃ cr k, [demoIntermediate, demoRoot].getLast? = some cr ∧
      cr.subject_key_identifier = some k ∧
      cr.authority_key_identifier = some (some k)) ∧
    demoIntermediate.subject_common_name = some "Picky Authority" ∧
    demoRoot.subject_common_name = some "Picky Root CA" := by
  have hwalk : find_ca_chain demoStore 16 "Picky Authority" =
      some (Except.ok [demoIntermediate, demoRoot]) := by decide
  have h := chain_walk_starts_at_start_ends_at_root demoStore 16 "Picky Authority"
    "addr-auth" demoIntermediate [demoIntermediate, demoRoot] (by decide) (by decide)
    demoStore_coherent (by decide) hwalk
  exact ⟨hwalk, h.1, h.2, rfl, rfl⟩

/-! ### A store whose AKI links form a two-element cycle. -/

def cycCertA : Cert :=
  { der := [2]
    subject_common_name := some "A"
    issuer_common_name := some "B"
    subject_key_identifier := some "aa"
    authority_key_identifier := some (some "bb")
    signature := [] }

def cycCertB : Cert :=
  { der := [3]
    subject_common_name := some "B"
    issuer_common_name := some "A"
    subject_key_identifier := some "bb"
    authority_key_identifier := some (some "aa")
    signature := [] }

def cycStore : PickyStorage :=
  { certByAddress := fun a =>
      if a = "addr-a" then some cycCertA
      else if a = "addr-b" then some cycCertB
      else none
    keyByAddress := fun _ => none
    addressByName := fun n => if n = "A" then some "addr-a" else none
    addressByKeyId := fun k =>
      if k = "aa" then some "addr-a"
      else if k = "bb" then some "addr-b"
      else none
    addressByAlternate := fun _ => none }

/-- The chain walk started at `name` never finishes, whatever iteration
budget it is given. -/
def find_ca_chain_diverges (s : PickyStorage) (name : String) : Prop :=
  ∀ fuel, find_ca_chain s fuel name = none

/-- Counterexample to C3: on the two-certificate cycle store, after 20
loop iterations — beyond the claimed 16-hop bound and well past the
second visit of key identifier `bb` — the walk has neither produced a
chain nor stopped with a `ChainBroken` error. -/
theorem chain_walk_not_bounded_by_16_hops :
    find_ca_chain cycStore 20 "A" = none := by decide

theorem cyc_loop_never_finishes :
    ∀ fuel, ∀ acc,
      find_ca_chain_loop cycStore fuel cycCertA "aa" acc = none ∧
      find_ca_chain_loop cycStore fuel cycCertB "bb" acc = none := by
  intro fuel
  induction fuel with
  | zero => intro acc; exact ⟨rfl, rfl⟩
  | succ n ih =>
    intro acc
    constructor
    · show find_ca_chain_loop cycStore (n + 1) cycCertA "aa" acc = none
      have hstep : find_ca_chain_loop cycStore (n + 1) cycCertA "aa" acc =
          find_ca_chain_loop cycStore n cycCertB "bb" (acc ++ [cycCertB]) := by
        simp [find_ca_chain_loop, cycCertA, cycStore]
      rw [hstep]
      exact (ih (acc ++ [cycCertB])).2
    · show find_ca_chain_loop cycStore (n + 1) cycCertB "bb" acc = none
      have hstep : find_ca_chain_loop cycStore (n + 1) cycCertB "bb" acc =
          find_ca_chain_loop cycStore n cycCertA "aa" (acc ++ [cycCertA]) := by
        simp [find_ca_chain_loop, cycCertB, cycStore]
      rw [hstep]
      exact (ih (acc ++ [cycCertA])).1

/-- C3 (amended): the walk stops with an error when the starting name
is not indexed or the current certificate lacks an AKI extension, but
it has no 16-hop bound and no repeated-key-identifier guard: on a store
whose AKI links form a two-element cycle it never terminates. -/
theorem chain_walk_termination_behaviour :
    (∀ (s : PickyStorage) (name : String) (fuel : Nat),
      s.addressByName name = none →
      find_ca_chain s fuel name = some (Except.error "couldn't fetch CA hash id")) ∧
    (∀ (s : PickyStorage) (name : String) (fuel : Nat) (h : String) (c : Cert),
      s.addressByName name = some h → s.certByAddress h = some c →
      c.authority_key_identifier = none →
      find_ca_chain s (fuel + 1) name =
        some (Except.error "couldn't fetch authority key identifier")) ∧
    find_ca_chain_diverges cycStore "A" := by
  refine ⟨?_, ?_, ?_⟩
  · intro s name fuel hname
    unfold find_ca_chain
    rw [hname]
  · intro s name fuel h c hname hcert haki
    unfold find_ca_chain
    simp only [hname, hcert]
    unfold find_ca_chain_loop
    rw [haki]
  · intro fuel
    cases fuel with
    | zero => rfl
    | succ n =>
      have hstep : find_ca_chain cycStore (n + 1) "A" =
          find_ca_chain_loop cycStore n cycCertB "bb" [cycCertA, cycCertB] := by
        simp [find_ca_chain, find_ca_chain_loop, cycStore, cycCertA]
      rw [hstep]
      exact (cyc_loop_never_finishes n [cycCertA, cycCertB]).2

/-! A store whose starting certificate has no AKI extension. -/

def akilessCert : Cert :=
  { der := [4]
    subject_common_name := some "C"
    issuer_common_name := some "C"
    subject_key_identifier := some "cc"
    authority_key_identifier := none
    signature := [] }

def akilessStore : PickyStorage :=
  { certByAddress := fun a => if a = "addr-c" then some akilessCert else none
    keyByAddress := fun _ => none
    addressByName := fun n => if n = "C" then some "addr-c" else none
    addressByKeyId := fun _ => none
    addressByAlternate := fun _ => none }

/-- Witness for the amended C3 at concrete stores. -/
theorem chain_walk_termination_behaviour_witness :
    find_ca_chain akilessStore 5 "X" =
      some (Except.error "couldn't fetch CA hash id") ∧
    find_ca_chain akilessStore 5 "C" =
      some (Except.error "couldn't fetch authority key identifier") ∧
    find_ca_chain_diverges cycStore "A" :=
  ⟨chain_walk_termination_behaviour.1 akilessStore "X" 5 rfl,
   chain_walk_termination_behaviour.2.1 akilessStore "C" 4 "addr-c" akilessCert rfl rfl rfl,
   chain_walk_termination_behaviour.2.2⟩

/-! ### Configuration and the bootstrap controller.

Modelled from the spec: the `Config` type (crate `config` module, not
under `src/`) carries the configuration surface of §6; `root` and
`intermediate` are operator-supplied cert/key pairs, modelled in their
resolved form (the `PathOr` file indirection is resolved by the
external loader).  `Picky::generate_private_key`,
`Picky::generate_root` and `Picky::generate_intermediate` (crate
`picky_controller`, not under `src/`) draw fresh random key material;
a `BootstrapOracle` supplies the generated artefacts, making the
bootstrap controller a deterministic function of it. -/

inductive BackendType where
  | memory
  | file
  | mongodb
  | mysql
  | sqlite
deriving DecidableEq

structure CertKeyPair where
  cert : Cert
  key : Bytes
deriving DecidableEq

structure Config where
  realm : String
  backend : BackendType
  database_url : String
  file_backend_path : String
  save_certificate : Bool
  signing_algorithm : Nat
  root : Option CertKeyPair
  intermediate : Option CertKeyPair
deriving DecidableEq

structure BootstrapOracle where
  root_cert : Cert
  root_key_pkcs8 : Bytes
  intermediate_cert : Cert
  intermediate_key_pkcs8 : Bytes
deriving DecidableEq

/-- The storing tail of `generate_root_ca`, reached when the root name
is not already indexed. -/
def generate_root_ca_store (config : Config) (o : BootstrapOracle) (s : PickyStorage) :
    PickyStorage × Except String Bool :=
  match o.root_cert.subject_key_identifier with
  | none => (s, Except.error "couldn't fetch subject key identifier")
  | some ski =>
      (s.store
        { name := config.realm ++ " Root CA"
          cert := o.root_cert
          key_identifier := ski
          key := some o.root_key_pkcs8 },
        Except.ok true)

/-- `generate_root_ca`: no-op returning `false` when the name index
already holds a non-empty address, otherwise generate and store. -/
def generate_root_ca (config : Config) (o : BootstrapOracle) (s : PickyStorage) :
    PickyStorage × Except String Bool :=
  match s.addressByName (config.realm ++ " Root CA") with
  | some certs =>
      if certs ≠ "" then (s, Except.ok false)
      else generate_root_ca_store config o s
  | none => generate_root_ca_store config o s

/-- The storing tail of `generate_intermediate_ca`: fetch the root's
certificate and private key, then build and store the intermediate. -/
def generate_intermediate_ca_store (config : Config) (o : BootstrapOracle)
    (s : PickyStorage) : PickyStorage × Except String Bool :=
  match s.addressByName (config.realm ++ " Root CA") with
  | none => (s, Except.error "error while fetching root")
  | some root_hash =>
    match s.certByAddress root_hash with
    | none => (s, Except.error "couldn't fetch root CA")
    | some _root_cert =>
      match s.keyByAddress root_hash with
      | none => (s, Except.error "couldn't fetch root CA private key")
      | some _root_key =>
        match o.intermediate_cert.subject_key_identifier with
        | none => (s, Except.error "couldn't fetch key id")
        | some ski =>
            (s.store
              { name := config.realm ++ " Authority"
                cert := o.intermediate_cert
                key_identifier := ski
                key := some o.intermediate_key_pkcs8 },
              Except.ok true)

def generate_intermediate_ca (config : Config) (o : BootstrapOracle) (s : PickyStorage) :
    PickyStorage × Except String Bool :=
  match s.addressByName (config.realm ++ " Authority") with
  | some certs =>
      if certs ≠ "" then (s, Except.ok false)
      else generate_intermediate_ca_store config o s
  | none => generate_intermediate_ca_store config o s

/-- `inject_config_provided_cert`: check the configured certificate's
subject CN against the expected slot name before storing anything. -/
def inject_config_provided_cert (expected_subject_name : String) (pair : CertKeyPair)
    (s : PickyStorage) : PickyStorage × Option String :=
  match pair.cert.subject_key_identifier with
  | none => (s, some "couldn't parse fetch subject key identifier")
  | some ski =>
    match pair.cert.subject_common_name with
    | none => (s, some "couldn't find subject common name")
    | some subject_name =>
      if subject_name ≠ expected_subject_name then
        (s, some ("unexpected subject name: " ++ subject_name ++ " ; expected: " ++
          expected_subject_name))
      else
        (s.store
          { name := subject_name
            cert := pair.cert
            key_identifier := ski
            key := some pair.key },
          none)

/-- The root half of `init_storage_from_config`. -/
def init_root_slot (config : Config) (o : BootstrapOracle) (s : PickyStorage) :
    PickyStorage × Option String :=
  match config.root with
  | some pair =>
    match inject_config_provided_cert (config.realm ++ " Root CA") pair s with
    | (s1, some e) => (s1, some ("couldn't inject root CA: " ++ e))
    | (s1, none) => (s1, none)
  | none =>
    match generate_root_ca config o s with
    | (s1, Except.error e) => (s1, some ("couldn't generate root CA: " ++ e))
    | (s1, Except.ok _) => (s1, none)

/-- The intermediate half of `init_storage_from_config`. -/
def init_intermediate_slot (config : Config) (o : BootstrapOracle) (s : PickyStorage) :
    PickyStorage × Option String :=
  match config.intermediate with
  | some pair =>
    match inject_config_provided_cert (config.realm ++ " Authority") pair s with
    | (s1, some e) => (s1, some ("couldn't inject intermediate CA: " ++ e))
    | (s1, none) => (s1, none)
  | none =>
    match generate_intermediate_ca config o s with
    | (s1, Except.error e) => (s1, some ("couldn't generate intermediate CA: " ++ e))
    | (s1, Except.ok _) => (s1, none)

/-- `init_storage_from_config`: root slot first, then — only if it
succeeded — the intermediate slot. -/
def init_storage_from_config (config : Config) (o : BootstrapOracle) (s : PickyStorage) :
    PickyStorage × Option String :=
  match init_root_slot config o s with
  | (s1, some e) => (s1, some e)
  | (s1, none) => init_intermediate_slot config o s1

/-! ### The server controller state and configuration reload.

`ServerController` holds the storage handle (never reassigned after
startup — modelled by the immutable `storage_backend` field), the
shared configuration and the logging handle; warnings emitted through
the logging collaborator are modelled as an event list. -/

structure ServerState where
  storage_backend : BackendType
  store : PickyStorage
  config : Config
  warnings : List String

def dbUrlWarning : String := "'database_url' modification require service restart"

def filePathWarning : String := "'file_backend_path' modification require service restart"

def backendWarning : String := "'backend' modification require service restart"

/-- `reload_yaml_conf_impl`: re-run storage bootstrap against the new
configuration, then warn about changes to the three
immutable-at-runtime fields and swap the in-memory configuration.  The
freshly parsed YAML configuration (or the parse error) is an input,
since configuration loading is an external collaborator. -/
def reload_yaml_conf_impl (st : ServerState) (new_conf : Except String Config)
    (o : BootstrapOracle) : ServerState × Option String :=
  match new_conf with
  | Except.error e => (st, some ("couldn't reload config: " ++ e))
  | Except.ok nc =>
    match init_storage_from_config nc o st.store with
    | (s1, some e) => ({ st with store := s1 }, some e)
    | (s1, none) =>
        let ws :=
          (if st.config.database_url ≠ nc.database_url then [dbUrlWarning] else []) ++
          (if st.config.file_backend_path ≠ nc.file_backend_path then [filePathWarning] else []) ++
          (if st.config.backend ≠ nc.backend then [backendWarning] else [])
        ({ storage_backend := st.storage_backend
           store := s1
           config := nc
           warnings := st.warnings ++ ws }, none)

/-! ### Direct certificate submission (`post_cert`).

Status codes are modelled as their numeric values; the body formats
(PEM / JSON / DER / base64) are handled by the HTTP collaborator, so
the embedded operation receives the parsed certificate. -/

def post_cert (realm : String) (s : PickyStorage) (cert : Cert) :
    PickyStorage × Except Nat Nat :=
  match cert.subject_key_identifier with
  | none => (s, Except.error 400)
  | some ski =>
    match cert.issuer_common_name with
    | none => (s, Except.error 400)
    | some issuer_name =>
      if issuer_name ≠ realm ++ " Authority" then (s, Except.error 401)
      else
        match cert.subject_common_name with
        | none => (s, Except.error 400)
        | some subject_name =>
          (s.store
            { name := subject_name
              cert := cert
              key_identifier := ski
              key := none },
            Except.ok 200)

/-! ### Map and store algebra. -/

theorem upd_lookup_same {α : Type} (k : String) (v : α) (m : String → Option α) :
    upd k v m k = some v := by
  simp [upd]

theorem upd_lookup_other {α : Type} (k k' : String) (v : α) (m : String → Option α)
    (h : k' ≠ k) : upd k v m k' = m k' := by
  simp [upd, h]

theorem upd_self {α : Type} (k : String) (v : α) (m : String → Option α) :
    upd k v (upd k v m) = upd k v m := by
  funext x
  by_cases hx : x = k <;> simp [upd, hx]

theorem upd_absorb {α : Type} (ka kb : String) (va vb : α) (m : String → Option α)
    (hk : ka ≠ kb) :
    upd ka va (upd kb vb (upd ka va m)) = upd kb vb (upd ka va m) := by
  funext x
  by_cases hxa : x = ka
  · subst hxa
    simp [upd, hk]
  · by_cases hxb : x = kb <;> simp [upd, hxa, hxb, Ne.symm hk]

theorem upd2_self {α : Type} (k1 k2 : String) (v1 v2 : α) (m : String → Option α) :
    upd k2 v2 (upd k1 v1 (upd k2 v2 (upd k1 v1 m))) = upd k2 v2 (upd k1 v1 m) := by
  funext x
  by_cases hx2 : x = k2
  · simp [upd, hx2]
  · by_cases hx1 : x = k1 <;> simp [upd, hx1, hx2]

theorem updIfSome_self {α : Type} (k : String) (v : Option α) (m : String → Option α) :
    updIfSome k v (updIfSome k v m) = updIfSome k v m := by
  cases v <;> simp [updIfSome, upd_self]

theorem updIfSome_absorb {α : Type} (ka kb : String) (va vb : Option α)
    (m : String → Option α) (hk : ka ≠ kb) :
    updIfSome ka va (updIfSome kb vb (updIfSome ka va m)) =
      updIfSome kb vb (updIfSome ka va m) := by
  cases va <;> cases vb <;> simp [updIfSome, upd_self, upd_absorb _ _ _ _ _ hk]

theorem updIfSome2_self {α : Type} (k1 k2 : String) (v1 v2 : Option α)
    (m : String → Option α) :
    updIfSome k2 v2 (updIfSome k1 v1 (updIfSome k2 v2 (updIfSome k1 v1 m))) =
      updIfSome k2 v2 (updIfSome k1 v1 m) := by
  cases v1 <;> cases v2 <;> simp [updIfSome, upd_self, upd2_self]

theorem store_store_self (s : PickyStorage) (e : CertificateEntry) :
    (s.store e).store e = s.store e := by
  simp only [PickyStorage.store, alternateAddressesOf, List.foldl_cons, List.foldl_nil,
    upd_self, updIfSome_self]

theorem store_absorb (s : PickyStorage) (a b : CertificateEntry)
    (haddr : canonicalAddressOf a.cert.der ≠ canonicalAddressOf b.cert.der)
    (halt : altAddressOf a.cert.der ≠ altAddressOf b.cert.der)
    (hname : a.name ≠ b.name)
    (hki : a.key_identifier ≠ b.key_identifier) :
    ((s.store a).store b).store a = (s.store a).store b := by
  simp only [PickyStorage.store, alternateAddressesOf, List.foldl_cons, List.foldl_nil]
  congr 1
  · exact upd_absorb _ _ _ _ _ haddr
  · exact updIfSome_absorb _ _ _ _ _ haddr
  · exact upd_absorb _ _ _ _ _ hname
  · exact upd_absorb _ _ _ _ _ hki
  · exact upd_absorb _ _ _ _ _ halt

theorem store2_self (s : PickyStorage) (a b : CertificateEntry) :
    (((s.store a).store b).store a).store b = (s.store a).store b := by
  simp only [PickyStorage.store, alternateAddressesOf, List.foldl_cons, List.foldl_nil,
    upd2_self, updIfSome2_self]

theorem canonicalAddressOf_ne_empty (der : Bytes) : canonicalAddressOf der ≠ "" := by
  intro h
  have hd := congrArg String.data h
  simp only [canonicalAddressOf, Multibase.encode] at hd
  exact List.noConfusion hd

theorem root_name_ne_intermediate_name (realm : String) :
    realm ++ " Root CA" ≠ realm ++ " Authority" := by
  intro h
  have hl := congrArg String.length h
  have h8 : (" Root CA" : String).length = 8 := rfl
  have h10 : (" Authority" : String).length = 10 := rfl
  simp only [String.length_append] at hl
  omega

/-! ### Shape lemmas for the bootstrap slots. -/

theorem inject_ok_shape (exp : String) (pair : CertKeyPair) (s s' : PickyStorage)
    (h : inject_config_provided_cert exp pair s = (s', none)) :
    ∃ k, pair.cert.subject_key_identifier = some k ∧
      pair.cert.subject_common_name = some exp ∧
      s' = s.store
        { name := exp, cert := pair.cert, key_identifier := k, key := some pair.key } := by
  unfold inject_config_provided_cert at h
  cases hski : pair.cert.subject_key_identifier with
  | none =>
    simp only [hski, Prod.mk.injEq] at h
    exact absurd h.2 (by simp)
  | some k =>
    simp only [hski] at h
    cases hcn : pair.cert.subject_common_name with
    | none =>
      simp only [hcn, Prod.mk.injEq] at h
      exact absurd h.2 (by simp)
    | some n =>
      simp only [hcn] at h
      by_cases hne : n ≠ exp
      · rw [if_pos hne] at h
        simp only [Prod.mk.injEq] at h
        exact absurd h.2 (by simp)
      · rw [if_neg hne] at h
        simp only [Prod.mk.injEq] at h
        obtain rfl : n = exp := not_not.mp hne
        exact ⟨k, rfl, rfl, h.1.symm⟩

theorem inject_run (exp : String) (pair : CertKeyPair) (s : PickyStorage) (k : String)
    (hski : pair.cert.subject_key_identifier = some k)
    (hcn : pair.cert.subject_common_name = some exp) :
    inject_config_provided_cert exp pair s =
      (s.store { name := exp, cert := pair.cert, key_identifier := k, key := some pair.key },
        none) := by
  unfold inject_config_provided_cert
  simp only [hski, hcn]
  rw [if_neg (by simp)]

theorem generate_root_ca_store_ok (c : Config) (o : BootstrapOracle) (s s' : PickyStorage)
    (b : Bool) (hst : generate_root_ca_store c o s = (s', Except.ok b)) :
    ∃ k, o.root_cert.subject_key_identifier = some k ∧
      s' = s.store
        { name := c.realm ++ " Root CA", cert := o.root_cert, key_identifier := k
          key := some o.root_key_pkcs8 } := by
  unfold generate_root_ca_store at hst
  cases hski : o.root_cert.subject_key_identifier with
  | none =>
    simp only [hski, Prod.mk.injEq] at hst
    exact absurd hst.2 (by simp)
  | some k =>
    simp only [hski, Prod.mk.injEq] at hst
    exact ⟨k, rfl, hst.1.symm⟩

theorem generate_root_ca_ok (c : Config) (o : BootstrapOracle) (s s' : PickyStorage)
    (b : Bool) (h : generate_root_ca c o s = (s', Except.ok b)) :
    (s' = s ∧ ∃ a, s.addressByName (c.realm ++ " Root CA") = some a ∧ a ≠ "") ∨
    (∃ k, o.root_cert.subject_key_identifier = some k ∧
      s' = s.store
        { name := c.realm ++ " Root CA", cert := o.root_cert, key_identifier := k
          key := some o.root_key_pkcs8 }) := by
  unfold generate_root_ca at h
  cases hl : s.addressByName (c.realm ++ " Root CA") with
  | none =>
    simp only [hl] at h
    exact Or.inr (generate_root_ca_store_ok c o s s' b h)
  | some a =>
    simp only [hl] at h
    by_cases ha : a ≠ ""
    · rw [if_pos ha] at h
      simp only [Prod.mk.injEq] at h
      exact Or.inl ⟨h.1.symm, a, rfl, ha⟩
    · rw [if_neg ha] at h
      exact Or.inr (generate_root_ca_store_ok c o s s' b h)

theorem generate_root_ca_present (c : Config) (o : BootstrapOracle) (s : PickyStorage)
    (a : String) (hl : s.addressByName (c.realm ++ " Root CA") = some a) (ha : a ≠ "") :
    generate_root_ca c o s = (s, Except.ok false) := by
  unfold generate_root_ca
  simp only [hl]
  rw [if_pos ha]

theorem generate_intermediate_ca_store_ok (c : Config) (o : BootstrapOracle)
    (s s' : PickyStorage) (b : Bool)
    (hst : generate_intermediate_ca_store c o s = (s', Except.ok b)) :
    ∃ k, o.intermediate_cert.subject_key_identifier = some k ∧
      s' = s.store
        { name := c.realm ++ " Authority", cert := o.intermediate_cert, key_identifier := k
          key := some o.intermediate_key_pkcs8 } := by
  unfold generate_intermediate_ca_store at hst
  cases hrl : s.addressByName (c.realm ++ " Root CA") with
  | none =>
    simp only [hrl, Prod.mk.injEq] at hst
    exact absurd hst.2 (by simp)
  | some root_hash =>
    simp only [hrl] at hst
    cases hrc : s.certByAddress root_hash with
    | none =>
      simp only [hrc, Prod.mk.injEq] at hst
      exact absurd hst.2 (by simp)
    | some rc =>
      simp only [hrc] at hst
      cases hrk : s.keyByAddress root_hash with
      | none =>
        simp only [hrk, Prod.mk.injEq] at hst
        exact absurd hst.2 (by simp)
      | some rk =>
        simp only [hrk] at hst
        cases hski : o.intermediate_cert.subject_key_identifier with
        | none =>
          simp only [hski, Prod.mk.injEq] at hst
          exact absurd hst.2 (by simp)
        | some k =>
          simp only [hski, Prod.mk.injEq] at hst
          exact ⟨k, rfl, hst.1.symm⟩

theorem generate_intermediate_ca_ok (c : Config) (o : BootstrapOracle) (s s' : PickyStorage)
    (b : Bool) (h : generate_intermediate_ca c o s = (s', Except.ok b)) :
    (s' = s ∧ ∃ a, s.addressByName (c.realm ++ " Authority") = some a ∧ a ≠ "") ∨
    (∃ k, o.intermediate_cert.subject_key_identifier = some k ∧
      s' = s.store
        { name := c.realm ++ " Authority", cert := o.intermediate_cert, key_identifier := k
          key := some o.intermediate_key_pkcs8 }) := by
  unfold generate_intermediate_ca at h
  cases hl : s.addressByName (c.realm ++ " Authority") with
  | none =>
    simp only [hl] at h
    exact Or.inr (generate_intermediate_ca_store_ok c o s s' b h)
  | some a =>
    simp only [hl] at h
    by_cases ha : a ≠ ""
    · rw [if_pos ha] at h
      simp only [Prod.mk.injEq] at h
      exact Or.inl ⟨h.1.symm, a, rfl, ha⟩
    · rw [if_neg ha] at h
      exact Or.inr (generate_intermediate_ca_store_ok c o s s' b h)

theorem generate_intermediate_ca_present (c : Config) (o : BootstrapOracle)
    (s : PickyStorage) (a : String)
    (hl : s.addressByName (c.realm ++ " Authority") = some a) (ha : a ≠ "") :
    generate_intermediate_ca c o s = (s, Except.ok false) := by
  unfold generate_intermediate_ca
  simp only [hl]
  rw [if_pos ha]

/-! ### Slot-level lemmas. -/

theorem init_root_slot_ok (c : Config) (o : BootstrapOracle) (s s1 : PickyStorage)
    (h : init_root_slot c o s = (s1, none)) :
    (∃ pair k, c.root = some pair ∧
      pair.cert.subject_key_identifier = some k ∧
      pair.cert.subject_common_name = some (c.realm ++ " Root CA") ∧
      s1 = s.store
        { name := c.realm ++ " Root CA", cert := pair.cert, key_identifier := k
          key := some pair.key }) ∨
    (c.root = none ∧
      ((s1 = s ∧ ∃ a, s.addressByName (c.realm ++ " Root CA") = some a ∧ a ≠ "") ∨
       (∃ k, o.root_cert.subject_key_identifier = some k ∧
        s1 = s.store
          { name := c.realm ++ " Root CA", cert := o.root_cert, key_identifier := k
            key := some o.root_key_pkcs8 }))) := by
  unfold init_root_slot at h
  cases hr : c.root with
  | some pair =>
    simp only [hr] at h
    cases hinj : inject_config_provided_cert (c.realm ++ " Root CA") pair s with
    | mk s2 r =>
      cases r with
      | some e =>
        simp only [hinj, Prod.mk.injEq] at h
        exact absurd h.2 (by simp)
      | none =>
        simp only [hinj, Prod.mk.injEq] at h
        obtain ⟨k, hski, hcn, hs2⟩ := inject_ok_shape _ _ _ _ hinj
        exact Or.inl ⟨pair, k, rfl, hski, hcn, h.1 ▸ hs2⟩
  | none =>
    simp only [hr] at h
    cases hgen : generate_root_ca c o s with
    | mk s2 r =>
      cases r with
      | error e =>
        simp only [hgen, Prod.mk.injEq] at h
        exact absurd h.2 (by simp)
      | ok b =>
        simp only [hgen, Prod.mk.injEq] at h
        exact Or.inr ⟨rfl, h.1 ▸ generate_root_ca_ok c o s s2 b hgen⟩

theorem init_intermediate_slot_ok (c : Config) (o : BootstrapOracle) (s s1 : PickyStorage)
    (h : init_intermediate_slot c o s = (s1, none)) :
    (∃ pair k, c.intermediate = some pair ∧
      pair.cert.subject_key_identifier = some k ∧
      pair.cert.subject_common_name = some (c.realm ++ " Authority") ∧
      s1 = s.store
        { name := c.realm ++ " Authority", cert := pair.cert, key_identifier := k
          key := some pair.key }) ∨
    (c.intermediate = none ∧
      ((s1 = s ∧ ∃ a, s.addressByName (c.realm ++ " Authority") = some a ∧ a ≠ "") ∨
       (∃ k, o.intermediate_cert.subject_key_identifier = some k ∧
        s1 = s.store
          { name := c.realm ++ " Authority", cert := o.intermediate_cert, key_identifier := k
            key := some o.intermediate_key_pkcs8 }))) := by
  unfold init_intermediate_slot at h
  cases hr : c.intermediate with
  | some pair =>
    simp only [hr] at h
    cases hinj : inject_config_provided_cert (c.realm ++ " Authority") pair s with
    | mk s2 r =>
      cases r with
      | some e =>
        simp only [hinj, Prod.mk.injEq] at h
        exact absurd h.2 (by simp)
      | none =>
        simp only [hinj, Prod.mk.injEq] at h
        obtain ⟨k, hski, hcn, hs2⟩ := inject_ok_shape _ _ _ _ hinj
        exact Or.inl ⟨pair, k, rfl, hski, hcn, h.1 ▸ hs2⟩
  | none =>
    simp only [hr] at h
    cases hgen : generate_intermediate_ca c o s with
    | mk s2 r =>
      cases r with
      | error e =>
        simp only [hgen, Prod.mk.injEq] at h
        exact absurd h.2 (by simp)
      | ok b =>
        simp only [hgen, Prod.mk.injEq] at h
        exact Or.inr ⟨rfl, h.1 ▸ generate_intermediate_ca_ok c o s s2 b hgen⟩


/-- All outcomes of `inject_config_provided_cert` leave the store
unchanged or extend it with an entry named by the expected subject. -/
theorem inject_store_cases (exp : String) (pair : CertKeyPair) (s s2 : PickyStorage)
    (r2 : Option String) (h : inject_config_provided_cert exp pair s = (s2, r2)) :
    s2 = s ∨ ∃ e : CertificateEntry, e.name = exp ∧ s2 = s.store e := by
  unfold inject_config_provided_cert at h
  cases hski : pair.cert.subject_key_identifier with
  | none =>
    simp only [hski, Prod.mk.injEq] at h
    exact Or.inl h.1.symm
  | some k =>
    simp only [hski] at h
    cases hcn : pair.cert.subject_common_name with
    | none =>
      simp only [hcn, Prod.mk.injEq] at h
      exact Or.inl h.1.symm
    | some n =>
      simp only [hcn] at h
      by_cases hne : n ≠ exp
      · rw [if_pos hne] at h
        simp only [Prod.mk.injEq] at h
        exact Or.inl h.1.symm
      · rw [if_neg hne] at h
        simp only [Prod.mk.injEq] at h
        exact Or.inr ⟨_, not_not.mp hne, h.1.symm⟩

/-- All outcomes of `generate_intermediate_ca` leave the store
unchanged or extend it with an entry named `<realm> Authority`. -/
theorem generate_intermediate_ca_cases (c : Config) (o : BootstrapOracle)
    (s s2 : PickyStorage) (r2 : Except String Bool)
    (h : generate_intermediate_ca c o s = (s2, r2)) :
    s2 = s ∨ ∃ e : CertificateEntry, e.name = c.realm ++ " Authority" ∧ s2 = s.store e := by
  have hstore : generate_intermediate_ca_store c o s = (s2, r2) →
      s2 = s ∨ ∃ e : CertificateEntry, e.name = c.realm ++ " Authority" ∧
        s2 = s.store e := by
    intro hst
    unfold generate_intermediate_ca_store at hst
    cases hrl : s.addressByName (c.realm ++ " Root CA") with
    | none =>
      simp only [hrl, Prod.mk.injEq] at hst
      exact Or.inl hst.1.symm
    | some rh =>
      simp only [hrl] at hst
      cases hrc : s.certByAddress rh with
      | none =>
        simp only [hrc, Prod.mk.injEq] at hst
        exact Or.inl hst.1.symm
      | some rc =>
        simp only [hrc] at hst
        cases hrk : s.keyByAddress rh with
        | none =>
          simp only [hrk, Prod.mk.injEq] at hst
          exact Or.inl hst.1.symm
        | some rk =>
          simp only [hrk] at hst
          cases hski : o.intermediate_cert.subject_key_identifier with
          | none =>
            simp only [hski, Prod.mk.injEq] at hst
            exact Or.inl hst.1.symm
          | some k =>
            simp only [hski, Prod.mk.injEq] at hst
            exact Or.inr ⟨_, rfl, hst.1.symm⟩
  unfold generate_intermediate_ca at h
  cases hl : s.addressByName (c.realm ++ " Authority") with
  | none =>
    simp only [hl] at h
    exact hstore h
  | some a =>
    simp only [hl] at h
    by_cases ha : a ≠ ""
    · rw [if_pos ha] at h
      simp only [Prod.mk.injEq] at h
      exact Or.inl h.1.symm
    · rw [if_neg ha] at h
      exact hstore h

/-- Whatever the intermediate slot does — succeed, fail, or no-op — the
resulting store is the input store or the input store extended with an
entry named `<realm> Authority`. -/
theorem init_intermediate_slot_store_cases (c : Config) (o : BootstrapOracle)
    (s : PickyStorage) :
    (init_intermediate_slot c o s).1 = s ∨
    ∃ e : CertificateEntry, e.name = c.realm ++ " Authority" ∧
      (init_intermediate_slot c o s).1 = s.store e := by
  cases hres : init_intermediate_slot c o s with
  | mk s1 r =>
    suffices hgoal : s1 = s ∨ ∃ e : CertificateEntry,
        e.name = c.realm ++ " Authority" ∧ s1 = s.store e by
      rcases hgoal with h | ⟨e, he, h⟩
      · exact Or.inl h
      · exact Or.inr ⟨e, he, h⟩
    unfold init_intermediate_slot at hres
    cases hr : c.intermediate with
    | some pair =>
      simp only [hr] at hres
      cases hinj : inject_config_provided_cert (c.realm ++ " Authority") pair s with
      | mk s2 r2 =>
        have hcases := inject_store_cases _ _ _ _ _ hinj
        simp only [hinj] at hres
        cases r2 with
        | some e2 =>
          simp only [Prod.mk.injEq] at hres
          exact hres.1 ▸ hcases
        | none =>
          simp only [Prod.mk.injEq] at hres
          exact hres.1 ▸ hcases
    | none =>
      simp only [hr] at hres
      cases hgen : generate_intermediate_ca c o s with
      | mk s2 r2 =>
        have hcases := generate_intermediate_ca_cases _ _ _ _ _ hgen
        simp only [hgen] at hres
        cases r2 with
        | error e2 =>
          simp only [Prod.mk.injEq] at hres
          exact hres.1 ▸ hcases
        | ok b =>
          simp only [Prod.mk.injEq] at hres
          exact hres.1 ▸ hcases

theorem store_unfold (s : PickyStorage) (e : CertificateEntry) :
    s.store e =
      { certByAddress := upd (canonicalAddressOf e.cert.der) e.cert s.certByAddress
        keyByAddress := updIfSome (canonicalAddressOf e.cert.der) e.key s.keyByAddress
        addressByName := upd e.name (canonicalAddressOf e.cert.der) s.addressByName
        addressByKeyId := upd e.key_identifier (canonicalAddressOf e.cert.der) s.addressByKeyId
        addressByAlternate :=
          upd (altAddressOf e.cert.der) (canonicalAddressOf e.cert.der)
            s.addressByAlternate } := rfl

/-- The intermediate slot never touches the name-index entry of the
root name. -/
theorem init_intermediate_slot_preserves_root_name (c : Config) (o : BootstrapOracle)
    (s : PickyStorage) :
    (init_intermediate_slot c o s).1.addressByName (c.realm ++ " Root CA") =
      s.addressByName (c.realm ++ " Root CA") := by
  rcases init_intermediate_slot_store_cases c o s with hc | ⟨e, hen, hc⟩
  · rw [hc]
  · rw [hc, store_unfold]
    exact upd_lookup_other _ _ _ _ (hen ▸ root_name_ne_intermediate_name c.realm)

/-- Evaluated form of a reload whose configuration parsed. -/
theorem reload_impl_ok (st : ServerState) (nc : Config) (o : BootstrapOracle) :
    reload_yaml_conf_impl st (Except.ok nc) o =
      match init_storage_from_config nc o st.store with
      | (s1, some e) => ({ st with store := s1 }, some e)
      | (s1, none) =>
          ({ storage_backend := st.storage_backend
             store := s1
             config := nc
             warnings := st.warnings ++
               ((if st.config.database_url ≠ nc.database_url then [dbUrlWarning] else []) ++
                (if st.config.file_backend_path ≠ nc.file_backend_path then [filePathWarning]
                 else []) ++
                (if st.config.backend ≠ nc.backend then [backendWarning] else [])) },
            none) := rfl

/-- Whatever the outcome, a reload leaves the store of the resulting
state exactly as `init_storage_from_config` left it. -/
theorem reload_ok_store (st : ServerState) (nc : Config) (o : BootstrapOracle) :
    (reload_yaml_conf_impl st (Except.ok nc) o).1.store =
      (init_storage_from_config nc o st.store).1 := by
  rw [reload_impl_ok]
  cases hin : init_storage_from_config nc o st.store with
  | mk s1 r =>
    cases r with
    | some e => rfl
    | none => rfl

/-! ### Concrete fixtures for the controller claims. -/

def emptyStorage : PickyStorage :=
  { certByAddress := fun _ => none
    keyByAddress := fun _ => none
    addressByName := fun _ => none
    addressByKeyId := fun _ => none
    addressByAlternate := fun _ => none }

def demoOracle : BootstrapOracle :=
  { root_cert := demoRoot
    root_key_pkcs8 := [7]
    intermediate_cert := demoIntermediate
    intermediate_key_pkcs8 := [8] }

def basePickyConfig : Config :=
  { realm := "Picky"
    backend := BackendType.memory
    database_url := "mongodb://127.0.0.1:27017"
    file_backend_path := ""
    save_certificate := false
    signing_algorithm := 0
    root := none
    intermediate := none }

/-- C7: injecting an operator-supplied CA whose subject CN differs from
the expected slot name makes bootstrap fail with the subject-mismatch
(ConfigMismatch) error, for either slot: a mismatching root
(`<realm> Root CA`) fails before anything is stored, leaving the store
bit-for-bit unchanged; a mismatching intermediate
(`<realm> Authority`) — reached after the root slot completed — fails
with the analogous error, its own injection storing nothing. -/
theorem bootstrap_rejects_mismatched_injected_ca :
    (∀ (c : Config) (o : BootstrapOracle) (s : PickyStorage) (pair : CertKeyPair)
      (k n : String),
      c.root = some pair →
      pair.cert.subject_key_identifier = some k →
      pair.cert.subject_common_name = some n →
      n ≠ c.realm ++ " Root CA" →
      init_storage_from_config c o s =
        (s, some ("couldn't inject root CA: " ++
          ("unexpected subject name: " ++ n ++ " ; expected: " ++
            (c.realm ++ " Root CA"))))) ∧
    (∀ (c : Config) (o : BootstrapOracle) (s s1 : PickyStorage) (pair : CertKeyPair)
      (k n : String),
      init_root_slot c o s = (s1, none) →
      c.intermediate = some pair →
      pair.cert.subject_key_identifier = some k →
      pair.cert.subject_common_name = some n →
      n ≠ c.realm ++ " Authority" →
      init_storage_from_config c o s =
        (s1, some ("couldn't inject intermediate CA: " ++
          ("unexpected subject name: " ++ n ++ " ; expected: " ++
            (c.realm ++ " Authority"))))) := by
  constructor
  · intro c o s pair k n hroot hski hcn hne
    unfold init_storage_from_config init_root_slot inject_config_provided_cert
    simp only [hroot, hski, hcn]
    rw [if_pos hne]
  · intro c o s s1 pair k n hroot1 hci hski hcn hne
    unfold init_storage_from_config
    simp only [hroot1]
    unfold init_intermediate_slot inject_config_provided_cert
    simp only [hci, hski, hcn]
    rw [if_pos hne]

def otherRootCert : Cert :=
  { der := [5]
    subject_common_name := some "Other Root CA"
    issuer_common_name := some "Other Root CA"
    subject_key_identifier := some "ee"
    authority_key_identifier := some (some "ee")
    signature := [] }

def mismatchConfig : Config :=
  { basePickyConfig with root := some { cert := otherRootCert, key := [9] } }

def otherAuthorityCert : Cert :=
  { der := [14]
    subject_common_name := some "Other Authority"
    issuer_common_name := some "Other Root CA"
    subject_key_identifier := some "gg"
    authority_key_identifier := some (some "ee")
    signature := [] }

def mismatchIntermediateConfig : Config :=
  { basePickyConfig with intermediate := some { cert := otherAuthorityCert, key := [15] } }

/-- Witness for C7: realm `Picky` with an injected root `CN=Other Root
CA` fails leaving the empty store untouched; realm `Picky` with an
injected intermediate `CN=Other Authority` (root generated) fails with
the intermediate ConfigMismatch error and only the root record
stored. -/
theorem bootstrap_rejects_mismatched_injected_ca_witness :
    init_storage_from_config mismatchConfig demoOracle emptyStorage =
      (emptyStorage, some
        "couldn't inject root CA: unexpected subject name: Other Root CA ; expected: Picky Root CA") ∧
    init_storage_from_config mismatchIntermediateConfig demoOracle emptyStorage =
      (emptyStorage.store
        { name := mismatchIntermediateConfig.realm ++ " Root CA", cert := demoRoot
          key_identifier := "aa", key := some [7] },
        some
          "couldn't inject intermediate CA: unexpected subject name: Other Authority ; expected: Picky Authority") := by
  constructor
  · exact bootstrap_rejects_mismatched_injected_ca.1 mismatchConfig demoOracle
      emptyStorage { cert := otherRootCert, key := [9] } "ee" "Other Root CA"
      rfl rfl rfl (by decide)
  · exact bootstrap_rejects_mismatched_injected_ca.2 mismatchIntermediateConfig demoOracle
      emptyStorage
      (emptyStorage.store
        { name := mismatchIntermediateConfig.realm ++ " Root CA", cert := demoRoot
          key_identifier := "aa", key := some [7] })
      { cert := otherAuthorityCert, key := [15] } "gg" "Other Authority"
      rfl rfl rfl rfl (by decide)

/-- C10: the direct-submission endpoint decides solely on string
equality of the issuer CN with `<realm> Authority`: any parseable
certificate with an SKI and a subject CN whose issuer CN matches is
stored (with no private key, and no signature verification — the
`signature` field is arbitrary and never inspected); any certificate
whose issuer CN differs is rejected with 401 and nothing is stored. -/
theorem post_cert_accepts_on_issuer_name_only :
    (∀ (realm : String) (s : PickyStorage) (cert : Cert) (ski subj : String),
      cert.subject_key_identifier = some ski →
      cert.subject_common_name = some subj →
      cert.issuer_common_name = some (realm ++ " Authority") →
      post_cert realm s cert =
        (s.store { name := subj, cert := cert, key_identifier := ski, key := none },
          Except.ok 200)) ∧
    (∀ (realm : String) (s : PickyStorage) (cert : Cert) (ski issuer : String),
      cert.subject_key_identifier = some ski →
      cert.issuer_common_name = some issuer →
      issuer ≠ realm ++ " Authority" →
      post_cert realm s cert = (s, Except.error 401)) := by
  constructor
  · intro realm s cert ski subj hski hcn hiss
    unfold post_cert
    simp only [hski, hiss, hcn]
    rw [if_neg (by simp)]
  · intro realm s cert ski issuer hski hiss hne
    unfold post_cert
    simp only [hski, hiss]
    rw [if_pos hne]

def submittedLeaf : Cert :=
  { der := [6]
    subject_common_name := some "Mister Bushido"
    issuer_common_name := some "Picky Authority"
    subject_key_identifier := some "dd"
    authority_key_identifier := some (some "bb")
    signature := [42] }

def foreignLeaf : Cert :=
  { der := [7]
    subject_common_name := some "Mallory"
    issuer_common_name := some "Evil Authority"
    subject_key_identifier := some "ff"
    authority_key_identifier := some (some "99")
    signature := [43] }

/-- Witness for C10: a leaf claiming issuer `Picky Authority` is stored
keyless; one claiming `Evil Authority` is rejected with 401. -/
theorem post_cert_accepts_on_issuer_name_only_witness :
    post_cert "Picky" emptyStorage submittedLeaf =
      (emptyStorage.store
        { name := "Mister Bushido", cert := submittedLeaf, key_identifier := "dd"
          key := none },
        Except.ok 200) ∧
    post_cert "Picky" emptyStorage foreignLeaf = (emptyStorage, Except.error 401) :=
  ⟨post_cert_accepts_on_issuer_name_only.1 "Picky" emptyStorage submittedLeaf
      "dd" "Mister Bushido" rfl rfl rfl,
   post_cert_accepts_on_issuer_name_only.2 "Picky" emptyStorage foreignLeaf
      "ff" "Evil Authority" rfl rfl (by decide)⟩

/-- C8: a reload whose bootstrap succeeds replaces the in-memory
configuration wholesale, keeps the storage handle of startup, and logs
a warning for each changed immutable-at-runtime field (database URL,
file backend path, backend kind). -/
theorem reload_retains_storage_handle_and_swaps_config
    (st : ServerState) (nc : Config) (o : BootstrapOracle)
    (hinit : (init_storage_from_config nc o st.store).2 = none) :
    (reload_yaml_conf_impl st (Except.ok nc) o).2 = none ∧
    (reload_yaml_conf_impl st (Except.ok nc) o).1.storage_backend = st.storage_backend ∧
    (reload_yaml_conf_impl st (Except.ok nc) o).1.config = nc ∧
    (st.config.database_url ≠ nc.database_url →
      dbUrlWarning ∈ (reload_yaml_conf_impl st (Except.ok nc) o).1.warnings) ∧
    (st.config.file_backend_path ≠ nc.file_backend_path →
      filePathWarning ∈ (reload_yaml_conf_impl st (Except.ok nc) o).1.warnings) ∧
    (st.config.backend ≠ nc.backend →
      backendWarning ∈ (reload_yaml_conf_impl st (Except.ok nc) o).1.warnings) := by
  rw [reload_impl_ok]
  cases hin : init_storage_from_config nc o st.store with
  | mk s1 r =>
    have hr : r = none := by
      rw [hin] at hinit
      exact hinit
    subst hr
    refine ⟨rfl, rfl, rfl, ?_, ?_, ?_⟩
    · intro hne
      simp [hne, List.mem_append]
    · intro hne
      simp [hne, List.mem_append]
    · intro hne
      simp [hne, List.mem_append]

def sqliteConfig : Config := { basePickyConfig with backend := BackendType.sqlite }

def memoryState : ServerState :=
  { storage_backend := BackendType.memory
    store := emptyStorage
    config := basePickyConfig
    warnings := [] }

/-- Witness for C8: bootstrap on `memory`, reload with `sqlite`;
success, the backend warning is logged, the handle keeps its startup
backend, and the config records `sqlite`. -/
theorem reload_retains_storage_handle_and_swaps_config_witness :
    (reload_yaml_conf_impl memoryState (Except.ok sqliteConfig) demoOracle).2 = none ∧
    (reload_yaml_conf_impl memoryState (Except.ok sqliteConfig) demoOracle).1.storage_backend =
      BackendType.memory ∧
    (reload_yaml_conf_impl memoryState (Except.ok sqliteConfig) demoOracle).1.config =
      sqliteConfig ∧
    backendWarning ∈
      (reload_yaml_conf_impl memoryState (Except.ok sqliteConfig) demoOracle).1.warnings := by
  have h := reload_retains_storage_handle_and_swaps_config memoryState sqliteConfig
    demoOracle (by decide)
  exact ⟨h.1, h.2.1, h.2.2.1, h.2.2.2.2.2 (by decide)⟩

/-! ### Reload and CA generation (C9). -/

def realm2Config : Config := { basePickyConfig with realm := "Picky2" }

/-- Counterexample to C9: reloading with a configuration whose realm
names are not yet indexed (and no injected material) runs the generator
during reload: the freshly generated root certificate and its private
key, absent before the reload, are stored by it. -/
theorem reload_performs_generation :
    memoryState.store.certByAddress (canonicalAddressOf demoOracle.root_cert.der) = none ∧
    (reload_yaml_conf_impl memoryState (Except.ok realm2Config) demoOracle).1.store.certByAddress
        (canonicalAddressOf demoOracle.root_cert.der) = some demoOracle.root_cert ∧
    (reload_yaml_conf_impl memoryState (Except.ok realm2Config) demoOracle).1.store.keyByAddress
        (canonicalAddressOf demoOracle.root_cert.der) = some demoOracle.root_key_pkcs8 := by
  refine ⟨rfl, ?_, ?_⟩ <;> decide

/-- C9 (amended): reload runs the same bootstrap routine as startup;
when a CA slot's name is absent from the store and no material is
configured for that slot, a fresh CA is generated and stored during the
reload (generation is only skipped when the slot's name is already
indexed or operator material is injected). -/
theorem reload_generates_missing_root
    (st : ServerState) (nc : Config) (o : BootstrapOracle) (si : String)
    (hroot : nc.root = none)
    (habs : st.store.addressByName (nc.realm ++ " Root CA") = none)
    (hski : o.root_cert.subject_key_identifier = some si) :
    (reload_yaml_conf_impl st (Except.ok nc) o).1.store.addressByName
        (nc.realm ++ " Root CA") =
      some (canonicalAddressOf o.root_cert.der) := by
  rw [reload_ok_store]
  have hgen : generate_root_ca nc o st.store =
      (st.store.store
        { name := nc.realm ++ " Root CA", cert := o.root_cert, key_identifier := si
          key := some o.root_key_pkcs8 },
        Except.ok true) := by
    unfold generate_root_ca
    simp only [habs]
    unfold generate_root_ca_store
    simp only [hski]
  have hslot : init_root_slot nc o st.store =
      (st.store.store
        { name := nc.realm ++ " Root CA", cert := o.root_cert, key_identifier := si
          key := some o.root_key_pkcs8 },
        none) := by
    unfold init_root_slot
    simp only [hroot, hgen]
  have hinit1 : (init_storage_from_config nc o st.store).1 =
      (init_intermediate_slot nc o
        (st.store.store
          { name := nc.realm ++ " Root CA", cert := o.root_cert, key_identifier := si
            key := some o.root_key_pkcs8 })).1 := by
    unfold init_storage_from_config
    simp only [hslot]
  rw [hinit1, init_intermediate_slot_preserves_root_name, store_unfold]
  exact upd_lookup_same _ _ _

/-- Witness for the amended C9 at the concrete reload scenario. -/
theorem reload_generates_missing_root_witness :
    (reload_yaml_conf_impl memoryState (Except.ok realm2Config) demoOracle).1.store.addressByName
        ("Picky2" ++ " Root CA") =
      some (canonicalAddressOf demoOracle.root_cert.der) := by
  exact reload_generates_missing_root memoryState realm2Config demoOracle "aa" rfl rfl rfl

/-! ### Bootstrap idempotence (C4). -/

/-- The certificate that the root slot would store: the configured one
when material is injected, the generated one otherwise. -/
def root_slot_cert (c : Config) (o : BootstrapOracle) : Cert :=
  match c.root with
  | some pair => pair.cert
  | none => o.root_cert

def intermediate_slot_cert (c : Config) (o : BootstrapOracle) : Cert :=
  match c.intermediate with
  | some pair => pair.cert
  | none => o.intermediate_cert

/-- The two CA certificates a bootstrap run can store are separated:
distinct canonical addresses, distinct alternate addresses, distinct
subject key identifiers. Real certificates with distinct key material
satisfy this (the SKI is a hash of the public key, §3). -/
def BootstrapSeparated (c : Config) (o : BootstrapOracle) : Prop :=
  canonicalAddressOf (root_slot_cert c o).der ≠
    canonicalAddressOf (intermediate_slot_cert c o).der ∧
  altAddressOf (root_slot_cert c o).der ≠ altAddressOf (intermediate_slot_cert c o).der ∧
  (root_slot_cert c o).subject_key_identifier ≠
    (intermediate_slot_cert c o).subject_key_identifier

theorem init_ok_decompose (c : Config) (o : BootstrapOracle) (s : PickyStorage)
    (h : (init_storage_from_config c o s).2 = none) :
    ∃ s1 s2, init_root_slot c o s = (s1, none) ∧
      init_intermediate_slot c o s1 = (s2, none) ∧
      init_storage_from_config c o s = (s2, none) := by
  cases hrs : init_root_slot c o s with
  | mk s1 r1 =>
    have hinit_eq : init_storage_from_config c o s =
        (match ((s1, r1) : PickyStorage × Option String) with
         | (s1, some e) => (s1, some e)
         | (s1, none) => init_intermediate_slot c o s1) := by
      unfold init_storage_from_config
      rw [hrs]
    cases r1 with
    | some e =>
      rw [hinit_eq] at h
      exact Option.noConfusion h
    | none =>
      have h' : (init_intermediate_slot c o s1).2 = none := by
        rw [hinit_eq] at h
        exact h
      cases hint : init_intermediate_slot c o s1 with
      | mk s2 r2 =>
        have hr2 : r2 = none := by
          rw [hint] at h'
          exact h'
        subst hr2
        refine ⟨s1, s2, rfl, hint, ?_⟩
        rw [hinit_eq]
        exact hint

/-- C4: bootstrap is idempotent — after a successful run, a second run
with the same configuration (and any fresh randomness) performs no
store and succeeds, leaving the stored records and every index
bit-for-bit identical; in particular, when a slot's name is already
indexed the generation path returns `false` without storing or using
any key material. -/
theorem bootstrap_idempotent :
    (∀ (c : Config) (o1 o2 : BootstrapOracle) (s : PickyStorage),
      (init_storage_from_config c o1 s).2 = none →
      BootstrapSeparated c o1 →
      init_storage_from_config c o2 (init_storage_from_config c o1 s).1 =
        ((init_storage_from_config c o1 s).1, none)) ∧
    (∀ (c : Config) (o : BootstrapOracle) (s : PickyStorage) (a : String),
      s.addressByName (c.realm ++ " Root CA") = some a → a ≠ "" →
      generate_root_ca c o s = (s, Except.ok false)) := by
  constructor
  · intro c o1 o2 s h1 hsep
    obtain ⟨s1, s2, hroot1, hint1, hinit1⟩ := init_ok_decompose c o1 s h1
    rw [hinit1]
    show init_storage_from_config c o2 s2 = (s2, none)
    have hSproj : (init_intermediate_slot c o1 s1).1 = s2 := by rw [hint1]
    -- run-2 intermediate slot: always a no-op on s2
    have hB : init_intermediate_slot c o2 s2 = (s2, none) := by
      rcases init_intermediate_slot_ok c o1 s1 s2 hint1 with
        ⟨ipair, ki, hci, hskii, hcnii, hs2⟩ | ⟨hci, ⟨hs2eq, a2, hlook2, hane2⟩ | ⟨ki, hskii, hs2⟩⟩
      · -- injected in run 1: re-injecting the identical record is absorbed
        have habs : s2.store
            { name := c.realm ++ " Authority", cert := ipair.cert, key_identifier := ki
              key := some ipair.key } = s2 := by
          rw [hs2]
          exact store_store_self s1 _
        unfold init_intermediate_slot
        simp only [hci,
          inject_run (c.realm ++ " Authority") ipair s2 ki hskii hcnii]
        rw [habs]
      · -- already present in run 1: still present
        subst hs2eq
        unfold init_intermediate_slot
        simp only [hci, generate_intermediate_ca_present c o2 s2 a2 hlook2 hane2]
      · -- generated in run 1: its name is now indexed, so run 2 skips
        have hlook : s2.addressByName (c.realm ++ " Authority") =
            some (canonicalAddressOf o1.intermediate_cert.der) := by
          rw [hs2, store_unfold]
          exact upd_lookup_same _ _ _
        unfold init_intermediate_slot
        simp only [hci, generate_intermediate_ca_present c o2 s2 _ hlook
          (canonicalAddressOf_ne_empty _)]
    -- run-2 root slot: a no-op on s2
    have hA : init_root_slot c o2 s2 = (s2, none) := by
      rcases init_root_slot_ok c o1 s s1 hroot1 with
        ⟨rpair, kr, hcr, hskir, hcnr, hs1⟩ | ⟨hcr, hpres | ⟨kr, hskir, hs1⟩⟩
      · -- injected root: re-injection is absorbed
        have hrc : root_slot_cert c o1 = rpair.cert := by
          unfold root_slot_cert
          rw [hcr]
        have habs : s2.store
            { name := c.realm ++ " Root CA", cert := rpair.cert, key_identifier := kr
              key := some rpair.key } = s2 := by
          rcases init_intermediate_slot_ok c o1 s1 s2 hint1 with
            ⟨ipair, ki, hci, hskii, hcnii, hs2⟩ |
              ⟨hci, ⟨hs2eq, a2, hlook2, hane2⟩ | ⟨ki, hskii, hs2⟩⟩
          · have hic : intermediate_slot_cert c o1 = ipair.cert := by
              unfold intermediate_slot_cert
              rw [hci]
            rw [hs2, hs1]
            refine store_absorb s _ _ ?_ ?_ ?_ ?_
            · rw [← hrc, ← hic]
              exact hsep.1
            · rw [← hrc, ← hic]
              exact hsep.2.1
            · exact root_name_ne_intermediate_name c.realm
            · intro he
              have he2 : kr = ki := he
              apply hsep.2.2
              rw [hrc, hic, hskir, hskii, he2]
          · subst hs2eq
            rw [hs1]
            exact store_store_self s _
          · have hic : intermediate_slot_cert c o1 = o1.intermediate_cert := by
              unfold intermediate_slot_cert
              rw [hci]
            rw [hs2, hs1]
            refine store_absorb s _ _ ?_ ?_ ?_ ?_
            · rw [← hrc, ← hic]
              exact hsep.1
            · rw [← hrc, ← hic]
              exact hsep.2.1
            · exact root_name_ne_intermediate_name c.realm
            · intro he
              have he2 : kr = ki := he
              apply hsep.2.2
              rw [hrc, hic, hskir, hskii, he2]
        unfold init_root_slot
        simp only [hcr, inject_run (c.realm ++ " Root CA") rpair s2 kr hskir hcnr]
        rw [habs]
      · -- root already present in the initial store
        obtain ⟨hs1eq, a1, hlook1, hane1⟩ := hpres
        have hlook : s2.addressByName (c.realm ++ " Root CA") = some a1 := by
          rw [← hSproj, init_intermediate_slot_preserves_root_name, hs1eq]
          exact hlook1
        unfold init_root_slot
        simp only [hcr, generate_root_ca_present c o2 s2 a1 hlook hane1]
      · -- root generated in run 1: its name is now indexed
        have hlook : s2.addressByName (c.realm ++ " Root CA") =
            some (canonicalAddressOf o1.root_cert.der) := by
          rw [← hSproj, init_intermediate_slot_preserves_root_name, hs1, store_unfold]
          exact upd_lookup_same _ _ _
        unfold init_root_slot
        simp only [hcr, generate_root_ca_present c o2 s2 _ hlook
          (canonicalAddressOf_ne_empty _)]
    unfold init_storage_from_config
    rw [hA]
    exact hB
  · exact fun c o s a h1 h2 => generate_root_ca_present c o s a h1 h2

def demoOracle2 : BootstrapOracle :=
  { root_cert :=
      { der := [10]
        subject_common_name := some "Picky Root CA"
        issuer_common_name := some "Picky Root CA"
        subject_key_identifier := some "cc"
        authority_key_identifier := some (some "cc")
        signature := [] }
    root_key_pkcs8 := [12]
    intermediate_cert :=
      { der := [11]
        subject_common_name := some "Picky Authority"
        issuer_common_name := some "Picky Root CA"
        subject_key_identifier := some "dd"
        authority_key_identifier := some (some "cc")
        signature := [] }
    intermediate_key_pkcs8 := [13] }

/-- Witness for C4: a fresh bootstrap with realm `Picky` on the empty
memory store, re-run with different fresh randomness, changes nothing
and succeeds. -/
theorem bootstrap_idempotent_witness :
    (init_storage_from_config basePickyConfig demoOracle emptyStorage).2 = none ∧
    BootstrapSeparated basePickyConfig demoOracle ∧
    init_storage_from_config basePickyConfig demoOracle2
        (init_storage_from_config basePickyConfig demoOracle emptyStorage).1 =
      ((init_storage_from_config basePickyConfig demoOracle emptyStorage).1, none) :=
  ⟨by decide, by unfold BootstrapSeparated; decide,
   bootstrap_idempotent.1 basePickyConfig demoOracle demoOracle2 emptyStorage
     (by decide) (by unfold BootstrapSeparated; decide)⟩
